import Mathlib

/-!
Verification of the `myconfig` macOS backup/restore tool (core engine).

This file gives a shallow embedding, in Lean 4, of the component
abstraction and backup/restore orchestration engine of the repository:

* `src/utils.py`          — sensitivity predicate, backup verification,
                            manifest creation, `Logger.confirm`;
* `src/core.py`           — `AppConfig`, `CommandExecutor`, the six
                            `BackupComponent` implementations and the
                            monolithic `BackupManager`;
* `src/core/backup.py`    — the second `BackupManager` variant with
                            manifest/README generation, compression and
                            `unpack`.

Python functions become Lean functions; the ambient system (which
binaries exist, what the filesystem contains, what the user answers at
prompts, what exit status each shell command produces) is abstracted
into a `SysEnv` record of oracles, and the side effects of a call are
reified as a list of `Event`s (commands executed, confirmations asked)
plus a list of files written into the backup directory.  Fallible code
returns `Except`: a `SystemExit` raised by `CommandExecutor.run` with
`check=True`, or the `AttributeError` raised inside
`create_backup_manifest`, become `Except.error` values.

All definitions are computable, so each theorem with hypotheses comes
with a witness obtained by evaluating the embedding on concrete inputs.
-/

deriving instance DecidableEq for Except

namespace MyConfig

/-! ### String utilities

Python's substring test `pattern in s` and `str.lower`, modelled over
`String`/`List Char`. -/

/-- Contiguous-sublist test on character lists: `listContains pat s` is
true iff `pat` occurs as a contiguous run inside `s` (Python's
`pat in s`). -/
def listContains (pat : List Char) : List Char → Bool
  | [] => pat.isEmpty
  | c :: cs => pat.isPrefixOf (c :: cs) || listContains pat cs

/-- Python `pattern in s` on strings. -/
def strContains (s pat : String) : Bool :=
  listContains pat.data s.data

/-- Python `str.lower()` (ASCII case folding, which is all the call
sites use). -/
def toLowerStr (s : String) : String :=
  String.mk (s.data.map Char.toLower)

/-- Python `os.path.join(a, b)` for a relative second component. -/
def pjoin (a b : String) : String := a ++ "/" ++ b

/-! ### `src/utils.py` -/

namespace Utils

/-- The fixed pattern catalog of `utils.is_sensitive_file`
(`src/utils.py:190-215`), in source order. -/
def sensitive_patterns : List String :=
  [ "id_rsa", "id_dsa", "id_ecdsa", "id_ed25519",
    ".pem", ".key", ".p12", ".pfx",
    "known_hosts", "authorized_keys",
    ".gnupg", "secring.gpg", "pubring.gpg",
    "password", "passwd", "secret", "token",
    "api_key", "private_key", "credential",
    ".db", ".sqlite", ".sqlite3",
    ".history", ".bash_history", ".zsh_history",
    "cache", ".cache", "tmp", ".tmp",
    ".aws/credentials", ".docker/config.json",
    "keychain", ".keychain" ]

/-- `utils.is_sensitive_file` (`src/utils.py:185-217`): lowercase the
path, then test whether any catalog pattern occurs in it. -/
def is_sensitive_file (file_path : String) : Bool :=
  let lowered := toLowerStr file_path
  sensitive_patterns.any (fun pattern => strContains lowered pattern)

/-- Abstraction of an on-disk backup directory as seen by
`utils.verify_backup`: whether the path is a directory, and the
recursive listing of contained files with their sizes (relative path,
byte count), as produced by `os.walk`/`os.path.getsize`. -/
structure BackupDirStat where
  isDir : Bool
  files : List (String × Nat)

/-- Total size of all files under the directory
(`src/utils.py:149-151`). -/
def totalSize (d : BackupDirStat) : Nat :=
  (d.files.map Prod.snd).sum

/-- `utils.verify_backup` (`src/utils.py:129-159`): fail if the path is
not a directory, fail if the required marker `ENVIRONMENT.txt` is
missing, fail if the total size is below 1024 bytes, otherwise pass.
(The `except` branch that skips the size check on an OS error is not
modelled; the pure model always computes the size.) -/
def verify_backup (d : BackupDirStat) : Bool :=
  if !d.isDir then false
  else if !(d.files.any (fun f => f.1 == "ENVIRONMENT.txt")) then false
  else if totalSize d < 1024 then false
  else true

end Utils

/-! ### Claim C1 — sensitivity predicate -/

/-- C1.  `is_sensitive_file` returns true for every path whose
lowercased string contains one of the fixed sensitive substrings; the
substrings listed in the claim (`id_rsa`, `.pem`, `password`, `secret`,
`token`, `known_hosts`, `authorized_keys`, `.history`, `keychain`) are
all in the fixed catalog; and the ordinary config path `~/.zshrc` is
not sensitive. -/
theorem c1_sensitive_file_precision :
    (∀ (p pat : String), pat ∈ Utils.sensitive_patterns →
      strContains (toLowerStr p) pat = true →
      Utils.is_sensitive_file p = true) ∧
    (∀ pat ∈ ["id_rsa", ".pem", "password", "secret", "token",
              "known_hosts", "authorized_keys", ".history", "keychain"],
      pat ∈ Utils.sensitive_patterns) ∧
    Utils.is_sensitive_file "~/.zshrc" = false := by
  refine ⟨?_, by decide, by decide⟩
  intro p pat hmem hsub
  unfold Utils.is_sensitive_file
  exact List.any_eq_true.mpr ⟨pat, hmem, hsub⟩

/-- Witness for C1: a path containing `ID_RSA` (upper case) is flagged
sensitive, and `~/.zshrc` is not. -/
theorem c1_sensitive_file_precision_witness :
    Utils.is_sensitive_file "~/.ssh/ID_RSA" = true ∧
    Utils.is_sensitive_file "~/.zshrc" = false :=
  ⟨c1_sensitive_file_precision.1 "~/.ssh/ID_RSA" "id_rsa" (by decide) (by decide),
   c1_sensitive_file_precision.2.2⟩

/-! ### Claim C4 — verification threshold -/

/-- C4.  `verify_backup` fails when `ENVIRONMENT.txt` is absent; fails
when it is present but the total size of all files is below 1024 bytes
(in particular for a directory holding only a 10-byte
`ENVIRONMENT.txt`); and passes for a directory with `ENVIRONMENT.txt`
plus at least 1KB of data in total. -/
theorem c4_verification_threshold (d : Utils.BackupDirStat) :
    ((∀ f ∈ d.files, f.1 ≠ "ENVIRONMENT.txt") → Utils.verify_backup d = false) ∧
    ((∃ sz, ("ENVIRONMENT.txt", sz) ∈ d.files) → Utils.totalSize d < 1024 →
      Utils.verify_backup d = false) ∧
    (d.isDir = true → (∃ sz, ("ENVIRONMENT.txt", sz) ∈ d.files) →
      1024 ≤ Utils.totalSize d → Utils.verify_backup d = true) := by
  refine ⟨?_, ?_, ?_⟩
  · intro habsent
    have hany : d.files.any (fun f => f.1 == "ENVIRONMENT.txt") = false := by
      rw [List.any_eq_false]
      intro f hf
      simpa using habsent f hf
    simp [Utils.verify_backup, hany]
  · intro _ hsize
    unfold Utils.verify_backup
    split
    · rfl
    · split
      · rfl
      · simp [hsize]
  · intro hdir ⟨sz, hmem⟩ hsize
    have hany : d.files.any (fun f => f.1 == "ENVIRONMENT.txt") = true := by
      rw [List.any_eq_true]
      exact ⟨("ENVIRONMENT.txt", sz), hmem, by simp⟩
    simp [Utils.verify_backup, hdir, hany, Nat.not_lt.mpr hsize]

/-- Witness for C4: a directory with only a 10-byte `ENVIRONMENT.txt`
fails verification, and one with an additional 4KB `Brewfile`
passes. -/
theorem c4_verification_threshold_witness :
    Utils.verify_backup ⟨true, [("ENVIRONMENT.txt", 10)]⟩ = false ∧
    Utils.verify_backup ⟨true, [("ENVIRONMENT.txt", 10), ("Brewfile", 4096)]⟩ = true :=
  ⟨(c4_verification_threshold ⟨true, [("ENVIRONMENT.txt", 10)]⟩).2.1
      ⟨10, by decide⟩ (by decide),
   (c4_verification_threshold ⟨true, [("ENVIRONMENT.txt", 10), ("Brewfile", 4096)]⟩).2.2
      rfl ⟨10, by decide⟩ (by decide)⟩

/-! ### Claim C2 — non-destructive dotfiles restore

The shell script run by `DotfilesComponent.restore`
(`src/core.py:432-439`): after extracting the archive to a temporary
tree, `find . -type f` iterates over every regular file `item` of the
tree, and if `$HOME/item` exists it is first copied to
`$HOME/item.bak.<timestamp>`; only afterwards does a single
`rsync -av tmp/ home/` overwrite the home directory with the whole
tree.  We model the home directory as a partial map from paths to file
contents and the extracted tree as an association list of regular
files. -/

/-- A file path, as a character list. -/
abbrev FPath := List Char

/-- A file system: paths to file contents (`none` = no such file). -/
abbrev FS := FPath → Option (List Char)

/-- Point update of a file system (`cp`/`rsync` writing one file). -/
def fsUpdate (fs : FS) (p : FPath) (c : List Char) : FS :=
  fun q => if q = p then some c else fs q

/-- The backup name `"${dst}.bak.$(date +%Y%m%d%H%M%S)"` for
destination `p` and timestamp `stamp`. -/
def bakName (stamp p : FPath) : FPath :=
  p ++ (".bak.".data ++ stamp)

/-- One iteration of the backup loop:
`[[ -e "$dst" ]] && cp -a "$dst" "${dst}.bak.<ts>"`. -/
def backupStep (stamp : FPath) (fs : FS) (p : FPath) : FS :=
  match fs p with
  | some a => fsUpdate fs (bakName stamp p) a
  | none => fs

/-- The whole `find . -type f | while ...` backup loop, over every
regular file of the extracted tree. -/
def backupPhase (stamp : FPath) (fs : FS) (tree : List (FPath × List Char)) : FS :=
  tree.foldl (fun h e => backupStep stamp h e.1) fs

/-- The final `rsync -av tmp/ home/`: every file of the tree overwrites
the corresponding destination. -/
def rsyncPhase (fs : FS) (tree : List (FPath × List Char)) : FS :=
  tree.foldl (fun h e => fsUpdate h e.1 e.2) fs

/-- The restore script of `DotfilesComponent.restore`: back up every
pre-existing destination of a tree file, then rsync the tree onto
home. -/
def dotfiles_restore_script (stamp : FPath) (home : FS)
    (tree : List (FPath × List Char)) : FS :=
  rsyncPhase (backupPhase stamp home tree) tree

/-- `bakName` with a fixed stamp is injective in the path. -/
theorem bakName_inj {stamp p q : FPath} (h : bakName stamp p = bakName stamp q) :
    p = q :=
  List.append_cancel_right h

/-- `rsyncPhase` leaves paths outside the tree unchanged. -/
theorem rsyncPhase_not_mem (tree : List (FPath × List Char)) :
    ∀ (fs : FS) (r : FPath), r ∉ tree.map Prod.fst →
      rsyncPhase fs tree r = fs r := by
  induction tree with
  | nil => intro fs r _; rfl
  | cons e rest ih =>
    intro fs r hr
    simp only [List.map_cons, List.mem_cons] at hr
    push_neg at hr
    show rsyncPhase (fsUpdate fs e.1 e.2) rest r = fs r
    rw [ih _ r hr.2]
    simp [fsUpdate, hr.1]

/-- `rsyncPhase` installs the tree's content at each tree path
(provided the tree lists each path once). -/
theorem rsyncPhase_mem (tree : List (FPath × List Char)) :
    ∀ (fs : FS) (p : FPath) (c : List Char), (p, c) ∈ tree →
      (tree.map Prod.fst).Nodup →
      rsyncPhase fs tree p = some c := by
  induction tree with
  | nil => intro _ _ _ h; cases h
  | cons e rest ih =>
    intro fs p c hmem hnodup
    simp only [List.map_cons, List.nodup_cons] at hnodup
    cases List.mem_cons.mp hmem with
    | inl heq =>
      subst heq
      show rsyncPhase (fsUpdate fs p c) rest p = some c
      rw [rsyncPhase_not_mem rest _ p (by simpa using hnodup.1)]
      simp [fsUpdate]
    | inr hrest =>
      exact ih (fsUpdate fs e.1 e.2) p c hrest hnodup.2

/-- `backupPhase` leaves every path that is not a backup name of a tree
path unchanged. -/
theorem backupPhase_not_bak (stamp : FPath) (tree : List (FPath × List Char)) :
    ∀ (fs : FS) (r : FPath), (∀ q ∈ tree.map Prod.fst, r ≠ bakName stamp q) →
      backupPhase stamp fs tree r = fs r := by
  induction tree with
  | nil => intro fs r _; rfl
  | cons e rest ih =>
    intro fs r hr
    simp only [List.map_cons, List.mem_cons] at hr
    show backupPhase stamp (backupStep stamp fs e.1) rest r = fs r
    rw [ih _ r (fun q hq => hr q (Or.inr hq))]
    unfold backupStep
    cases h : fs e.1 with
    | none => rfl
    | some a => simp [fsUpdate, hr e.1 (Or.inl rfl)]

/-- `backupPhase` copies the pre-existing content of every tree path to
its timestamped backup name, provided the tree lists each path once and
no backup name of a tree path is itself a tree path. -/
theorem backupPhase_creates (stamp : FPath) (tree : List (FPath × List Char)) :
    ∀ (fs : FS) (p : FPath) (a : List Char),
      p ∈ tree.map Prod.fst →
      (tree.map Prod.fst).Nodup →
      (∀ q ∈ tree.map Prod.fst, bakName stamp q ∉ tree.map Prod.fst) →
      fs p = some a →
      backupPhase stamp fs tree (bakName stamp p) = some a := by
  induction tree with
  | nil => intro _ _ _ h; cases h
  | cons e rest ih =>
    intro fs p a hmem hnodup hfresh hfs
    simp only [List.map_cons, List.nodup_cons] at hnodup
    rw [List.map_cons] at hmem
    cases List.mem_cons.mp hmem with
    | inl heq =>
      have hside : ∀ q ∈ rest.map Prod.fst, bakName stamp p ≠ bakName stamp q := by
        intro q hq hbad
        have hpq : p = q := bakName_inj hbad
        rw [heq] at hpq
        exact hnodup.1 (hpq.symm ▸ hq)
      show backupPhase stamp (backupStep stamp fs e.1) rest (bakName stamp p) = some a
      rw [backupPhase_not_bak stamp rest _ (bakName stamp p) hside]
      unfold backupStep
      rw [← heq, hfs]
      simp [fsUpdate]
    | inr hrest =>
      have hpq : p ≠ bakName stamp e.1 := by
        intro hbad
        exact hfresh e.1 (by simp) (by rw [List.map_cons]; rw [← hbad]; exact hmem)
      have hfs' : backupStep stamp fs e.1 p = some a := by
        unfold backupStep
        cases h : fs e.1 with
        | none => exact hfs
        | some b =>
          simp only [fsUpdate, hpq, if_false]
          exact hfs
      exact ih (backupStep stamp fs e.1) p a hrest hnodup.2
        (fun q hq hbad =>
          hfresh q (List.mem_cons_of_mem _ hq) (List.mem_cons_of_mem _ hbad))
        hfs'

/-- C2.  A confirmed dotfiles restore of an extracted tree onto a home
directory installs the archived content at every tree path and, for
every tree path that already existed in home, first copies the old
content to a sibling `.bak.<timestamp>` file; so, for every regular
file of the tree (with the tree listing each path once and no archived
path colliding with a backup name), the pre-existing data survives at
the backup name. -/
theorem c2_nondestructive_restore (stamp : FPath) (home : FS)
    (tree : List (FPath × List Char))
    (hnodup : (tree.map Prod.fst).Nodup)
    (hfresh : ∀ q ∈ tree.map Prod.fst, bakName stamp q ∉ tree.map Prod.fst) :
    ∀ p c, (p, c) ∈ tree →
      dotfiles_restore_script stamp home tree p = some c ∧
      (∀ a, home p = some a →
        dotfiles_restore_script stamp home tree (bakName stamp p) = some a) := by
  intro p c hmem
  have hp : p ∈ tree.map Prod.fst := List.mem_map.mpr ⟨(p, c), hmem, rfl⟩
  constructor
  · exact rsyncPhase_mem tree _ p c hmem hnodup
  · intro a ha
    unfold dotfiles_restore_script
    rw [rsyncPhase_not_mem tree _ (bakName stamp p) (hfresh p hp)]
    exact backupPhase_creates stamp tree home p a hp hnodup hfresh ha

/-- A tiny concrete home directory: `.zshrc` holds `"A"`. -/
def homeA : FS :=
  fsUpdate (fun _ => none) ".zshrc".data "A".data

/-- Witness for C2: restoring an archive in which `.zshrc` holds `"B"`
onto a home where `.zshrc` holds `"A"` leaves `"B"` at `.zshrc` and
`"A"` at `.zshrc.bak.20240101120000`. -/
theorem c2_nondestructive_restore_witness :
    dotfiles_restore_script "20240101120000".data homeA
        [(".zshrc".data, "B".data)] ".zshrc".data = some "B".data ∧
    dotfiles_restore_script "20240101120000".data homeA
        [(".zshrc".data, "B".data)]
        (bakName "20240101120000".data ".zshrc".data) = some "A".data := by
  have h := c2_nondestructive_restore "20240101120000".data homeA
    [(".zshrc".data, "B".data)] (by simp) (by decide)
    ".zshrc".data "B".data (by simp)
  exact ⟨h.1, h.2 "A".data (by decide)⟩

/-! ### Execution model for `src/core.py`

`CommandExecutor` shells out via `subprocess.call`; components query the
filesystem and prompt the user.  The ambient system is abstracted into
a record of oracles (`SysEnv`), and every externally visible action of
a call is recorded as an `Event`.  Functions that can raise
`SystemExit` (a `CommandExecutor.run` with `check=True` observing a
non-zero exit status) return `Except Int`. -/

/-- `AppConfig` (`src/core.py:20-41`): immutable run-time options with
the source's defaults. -/
structure AppConfig where
  interactive : Bool := true
  dry_run : Bool := false
  verbose : Bool := false
  quiet : Bool := false
  enable_npm : Bool := false
  enable_pip_user : Bool := false
  enable_pipx : Bool := false
  enable_defaults : Bool := true
  enable_vscode : Bool := true
  enable_launchagents : Bool := true
  enable_mas : Bool := true
  enable_incremental : Bool := false
  base_backup_dir : String := ""
  defaults_domains_file : String := "config/defaults/domains.txt"
  defaults_exclude_file : String := "config/defaults/exclude.txt"
deriving DecidableEq

/-- Oracles describing the ambient system during one run:
which binaries exist (`command -v`), the exit status each shell command
would produce, what paths exist / are directories, the lines of text
files, the user's answer to each confirmation prompt, the basenames (no
extension) matched by the `~/Library/LaunchAgents/*.plist` glob, the
temporary directory handed out by `tempfile`, and the home
directory. -/
structure SysEnv where
  cfg : AppConfig
  home : String
  tmpDir : String
  whichCmd : String → Bool
  rc : String → Int
  fileExists : String → Bool
  isDir : String → Bool
  fileLines : String → List String
  confirmAnswer : String → Bool
  laPlistBases : List String

/-- The externally visible actions of a run: the environment file being
written, a component's `export` being invoked by the manager, a shell
command being executed (with its exit status), and a confirmation
prompt being asked (with the resolved answer). -/
inductive ComponentKind where
  | homebrew
  | mas
  | vscode
  | dotfiles
  | defaults
  | launchagents
deriving DecidableEq

inductive Event where
  | envWritten
  | invoked (k : ComponentKind)
  | ran (cmd : String) (code : Int)
  | confirmAsked (prompt : String) (answer : Bool)
deriving DecidableEq

/-- A file created inside the backup directory: (sub-directory relative
to the backup root, file name). -/
abbrev Entry := String × String

/-- Result of a fallible, effectful step: the value (or the
`SystemExit` code), the events it performed, and the files it wrote
into the backup directory. -/
abbrev StepRes (α : Type) := Except Int α × List Event × List Entry

/-- A pure step. -/
def retRes {α : Type} (a : α) : StepRes α := (.ok a, [], [])

/-- Sequencing of steps: events and written files accumulate in order;
an exception aborts the continuation. -/
def bindRes {α β : Type} (r : StepRes α) (f : α → StepRes β) : StepRes β :=
  match r with
  | (.error e, evs, fs) => (.error e, evs, fs)
  | (.ok v, evs, fs) =>
    match f v with
    | (r2, evs2, fs2) => (r2, evs ++ evs2, fs ++ fs2)

/-- `utils.Logger.confirm` (`src/utils.py:86-93`): a non-interactive
run resolves every confirmation to yes without consulting the user;
otherwise the user's reply decides. -/
def Logger.confirm (env : SysEnv) (prompt : String) : Bool :=
  if !env.cfg.interactive then true else env.confirmAnswer prompt

/-- A confirmation, as a step recording the asked prompt and the
resolved answer. -/
def confirmStep (env : SysEnv) (prompt : String) : StepRes Bool :=
  (.ok (Logger.confirm env prompt), [.confirmAsked prompt (Logger.confirm env prompt)], [])

namespace CommandExecutor

/-- `CommandExecutor.run` (`src/core.py:112-136`): a dry run only logs
and executes nothing; otherwise the command runs, and a non-zero exit
status with `check=True` raises `SystemExit(rc)`.  `writes` lists the
files the command creates inside the backup directory when it actually
executes (shell redirections and `tar`/`cp` targets). -/
def run (env : SysEnv) (cmd : String) (check : Bool) (writes : List Entry) :
    StepRes Int :=
  if env.cfg.dry_run then (.ok 0, [], [])
  else
    let code := env.rc cmd
    if check && code != 0 then (.error code, [.ran cmd code], writes)
    else (.ok code, [.ran cmd code], writes)

/-- `CommandExecutor.run_output` (`src/core.py:138-147`): runs even in
dry-run mode and never raises; only the exit status is used by the
modelled call sites. -/
def run_output (env : SysEnv) (cmd : String) : StepRes Int :=
  (.ok (env.rc cmd), [.ran cmd (env.rc cmd)], [])

/-- `CommandExecutor.which` (`src/core.py:149-151`). -/
def which (env : SysEnv) (cmd : String) : Bool :=
  env.whichCmd cmd

end CommandExecutor

/-- Python `os.path.expanduser` on the `~/...` patterns used by the
components. -/
def expanduser (env : SysEnv) (p : String) : String :=
  if p.startsWith "~" then env.home ++ p.drop 1 else p

/-! Shell command strings built by the components (`src/core.py`);
`\x27` is a single quote and `\x7b`/`\x7d` are braces. -/

def homebrewInstallCmd : String :=
  "NONINTERACTIVE=1 /bin/bash -c \"$(curl -fsSL https://raw.githubusercontent.com/Homebrew/install/HEAD/install.sh)\""

def brewDumpCmd (brewfile : String) : String :=
  "brew bundle dump --file=\"" ++ brewfile ++ "\" --force"

def brewVersionCmd (version_file : String) : String :=
  "brew --version > \"" ++ version_file ++ "\""

def brewBundleCmd (brewfile : String) : String :=
  "brew bundle --file=\"" ++ brewfile ++ "\""

def masListCmd (mas_file : String) : String :=
  "mas list > \"" ++ mas_file ++ "\""

def masBrewInstallCmd : String := "brew install mas"

def masInstallCmd (mas_file : String) : String :=
  "awk \x27\x7bprint $1\x7d\x27 \"" ++ mas_file ++
    "\" | while read -r id; do [[ -z \"$id\" ]] || mas install \"$id\" || true; done"

def codeListCmd (extensions_file : String) : String :=
  "code --list-extensions > \"" ++ extensions_file ++ "\""

def vscodeInstallCmd (extensions_file : String) : String :=
  "while read -r ext; do [[ -z \"$ext\" ]] || code --install-extension \"$ext\" || true; done < \"" ++
    extensions_file ++ "\""

def rsyncCopyCmd (src dest : String) : String :=
  "rsync -a --exclude \"*.key\" --exclude \"known_hosts\" --exclude \"authorized_keys\" \"" ++
    src ++ "\" \"" ++ dest ++ "\" 2>/dev/null || true"

def tarCreateCmd (archive tmp : String) : String :=
  "tar -czf \"" ++ archive ++ "\" -C \"" ++ tmp ++ "\" . || true"

def tarExtractCmd (archive tmp : String) : String :=
  "tar -xzf \"" ++ archive ++ "\" -C \"" ++ tmp ++ "\""

def dotfilesRestoreCmd (tmp home : String) : String :=
  "\n                cd \"" ++ tmp ++
    "\"\n                find . -type f -print0 | while IFS= read -r -d \"\" item; do\n                    dst=\"" ++
    home ++
    "/$\x7bitem#./\x7d\"\n                    [[ -e \"$dst\" ]] && cp -a \"$dst\" \"$\x7bdst\x7d.bak.$(date +%Y%m%d%H%M%S)\"\n                done\n                rsync -av \"" ++
    tmp ++ "/\" \"" ++ home ++ "/\"\n                "

def defaultsGrepCmd (domain : String) : String :=
  "defaults domains | grep -q \"" ++ domain ++ "\""

def defaultsExportCmd (domain plist_file : String) : String :=
  "defaults export \"" ++ domain ++ "\" \"" ++ plist_file ++ "\" || true"

def defaultsImportCmd (defaults_dir : String) : String :=
  "\n            for p in \"" ++ defaults_dir ++
    "\"/*.plist; do\n                [[ -e \"$p\" ]] || continue\n                d=\"$(basename \"$p\" .plist)\"\n                defaults domains | grep -q \"$d\" && defaults export \"$d\" \"$HOME/defaults_backup_$\x7bd\x7d_$(date +%Y%m%d%H%M%S).plist\" || true\n                defaults import \"$d\" \"$p\" || true\n            done\n            killall Dock 2>/dev/null || true\n            killall Finder 2>/dev/null || true\n            "

def laCopyOutCmd (la_dir backup_la_dir : String) : String :=
  "cp -a \"" ++ la_dir ++ "\"/*.plist \"" ++ backup_la_dir ++ "/\" 2>/dev/null || true"

def laMkdirCmd (la_dir : String) : String :=
  "mkdir -p \"" ++ la_dir ++ "\""

def laCopyInCmd (backup_la_dir la_dir : String) : String :=
  "cp -a \"" ++ backup_la_dir ++ "\"/*.plist \"" ++ la_dir ++ "/\" 2>/dev/null || true"

def laLoadCmd (la_dir : String) : String :=
  "find \"" ++ la_dir ++
    "\" -name \"*.plist\" -print0 | while IFS= read -r -d \"\" f; do launchctl load -w \"$f\" 2>/dev/null || true; done"

/-! ### The six backup components (`src/core.py:196-649`)

Python's `export` method is rendered as `exportTo` (`export` is a Lean
keyword); everything else keeps the source names. -/

namespace Core

namespace HomebrewComponent

/-- `HomebrewComponent.is_available` (`src/core.py:199-200`). -/
def is_available (env : SysEnv) : Bool := CommandExecutor.which env "brew"

/-- `HomebrewComponent.is_enabled` (`src/core.py:202-203`): always
enabled. -/
def is_enabled (_env : SysEnv) : Bool := true

/-- `HomebrewComponent.export` (`src/core.py:205-217`).  Note both
`run` calls use the default `check=True`. -/
def exportTo (env : SysEnv) (output_dir : String) : StepRes Bool :=
  if !is_available env then retRes false
  else
    let brewfile := pjoin output_dir "Brewfile"
    let version_file := pjoin output_dir "HOMEBREW_VERSION.txt"
    bindRes (CommandExecutor.run env (brewDumpCmd brewfile) true [("", "Brewfile")]) fun _ =>
    bindRes (CommandExecutor.run env (brewVersionCmd version_file) true
      [("", "HOMEBREW_VERSION.txt")]) fun _ =>
    retRes true

/-- `HomebrewComponent.restore` (`src/core.py:219-234`). -/
def restore (env : SysEnv) (backup_dir : String) : StepRes Bool :=
  let brewfile := pjoin backup_dir "Brewfile"
  if !env.fileExists brewfile then retRes false
  else
    bindRes
      (if !is_available env then
        bindRes (confirmStep env "Install Homebrew?") fun a =>
        if a then
          bindRes (CommandExecutor.run env homebrewInstallCmd false []) fun _ => retRes 0
        else retRes 0
      else retRes 0) fun _ =>
    bindRes (confirmStep env "Execute brew bundle install?") fun a =>
    if a then
      bindRes (CommandExecutor.run env (brewBundleCmd brewfile) false []) fun _ =>
      retRes true
    else retRes false

end HomebrewComponent

namespace MASComponent

/-- `MASComponent.is_available` (`src/core.py:259-260`). -/
def is_available (env : SysEnv) : Bool := CommandExecutor.which env "mas"

/-- `MASComponent.is_enabled` (`src/core.py:262-263`). -/
def is_enabled (env : SysEnv) : Bool := env.cfg.enable_mas

/-- `MASComponent.export` (`src/core.py:265-273`); `run` uses the
default `check=True`. -/
def exportTo (env : SysEnv) (output_dir : String) : StepRes Bool :=
  if !is_enabled env || !is_available env then retRes false
  else
    let mas_file := pjoin output_dir "mas.list"
    bindRes (CommandExecutor.run env (masListCmd mas_file) true [("", "mas.list")]) fun _ =>
    retRes true

/-- `MASComponent.restore` (`src/core.py:275-290`).  When `mas` is
absent it is installed via `brew install mas` with no confirmation;
the `mas install` replay loop is confirmation-gated. -/
def restore (env : SysEnv) (backup_dir : String) : StepRes Bool :=
  let mas_file := pjoin backup_dir "mas.list"
  if !env.fileExists mas_file then retRes false
  else
    bindRes
      (if !is_available env then CommandExecutor.run env masBrewInstallCmd false []
       else retRes 0) fun _ =>
    bindRes (confirmStep env "Install MAS list now?") fun a =>
    if a then
      bindRes (CommandExecutor.run env (masInstallCmd mas_file) false []) fun _ =>
      retRes true
    else retRes false

end MASComponent

namespace VSCodeComponent

/-- `VSCodeComponent.is_available` (`src/core.py:313-314`). -/
def is_available (env : SysEnv) : Bool := CommandExecutor.which env "code"

/-- `VSCodeComponent.is_enabled` (`src/core.py:316-317`). -/
def is_enabled (env : SysEnv) : Bool := env.cfg.enable_vscode

/-- `VSCodeComponent.export` (`src/core.py:319-327`); `run` uses the
default `check=True`. -/
def exportTo (env : SysEnv) (output_dir : String) : StepRes Bool :=
  if !is_enabled env || !is_available env then retRes false
  else
    let extensions_file := pjoin output_dir "vscode_extensions.txt"
    bindRes (CommandExecutor.run env (codeListCmd extensions_file) true
      [("", "vscode_extensions.txt")]) fun _ =>
    retRes true

/-- `VSCodeComponent.restore` (`src/core.py:329-344`). -/
def restore (env : SysEnv) (backup_dir : String) : StepRes Bool :=
  let extensions_file := pjoin backup_dir "vscode_extensions.txt"
  if !env.fileExists extensions_file then retRes false
  else if !is_available env then retRes false
  else
    bindRes (confirmStep env "Start installing VS Code extensions?") fun a =>
    if a then
      bindRes (CommandExecutor.run env (vscodeInstallCmd extensions_file) false []) fun _ =>
      retRes true
    else retRes false

end VSCodeComponent

namespace DotfilesComponent

/-- `DotfilesComponent.DOT_LIST` (`src/core.py:361-380`). -/
def DOT_LIST : List String :=
  [ "~/.zshrc", "~/.zprofile", "~/.bashrc", "~/.bash_profile", "~/.profile",
    "~/.gitconfig", "~/.gitignore_global", "~/.vimrc", "~/.ideavimrc",
    "~/.wezterm.lua", "~/.tmux.conf", "~/.config/tmux",
    "~/.config/wezterm", "~/.config/kitty", "~/.config/nvim", "~/.config/alacritty",
    "~/.config/karabiner", "~/.config/starship.toml", "~/.config/iterm2",
    "~/.ssh/config",
    "~/Library/Preferences/com.googlecode.iterm2.plist",
    "~/Library/Preferences/IdeaVim",
    "~/Library/Application Support/JetBrains",
    "~/Library/Preferences/IntelliJIdea*",
    "~/Library/Developer/Xcode/UserData",
    "~/Library/Services",
    "~/Library/Fonts",
    "~/Library/Application Support/Code/User/settings.json",
    "~/Library/Application Support/Code/User/keybindings.json",
    "~/Library/Application Support/Code/User/snippets" ]

/-- `DotfilesComponent._is_sensitive_file` (`src/core.py:481-490`).
Unlike `utils.is_sensitive_file` this variant does not lowercase and
uses a shorter pattern list (including `auth`). -/
def _is_sensitive_file (file_path : String) : Bool :=
  [ "private_key", "id_rsa", "id_dsa", "id_ecdsa", "id_ed25519",
    ".pem", ".key", ".p12", ".pfx",
    "password", "secret", "token", "auth",
    "known_hosts", "authorized_keys",
    "keychain", ".keychain" ].any (fun pattern => strContains file_path pattern)

/-- `DotfilesComponent.is_available` (`src/core.py:382-383`). -/
def is_available (_env : SysEnv) : Bool := true

/-- `DotfilesComponent.is_enabled` (`src/core.py:385-386`). -/
def is_enabled (_env : SysEnv) : Bool := true

/-- `DotfilesComponent._get_secure_dotfile_list` (`src/core.py:461-479`):
keep the catalog patterns whose expansion exists and is not
sensitive. -/
def _get_secure_dotfile_list (env : SysEnv) : List String :=
  DOT_LIST.filter (fun pattern =>
    env.fileExists (expanduser env pattern) &&
      !_is_sensitive_file (expanduser env pattern))

/-- The per-pattern `rsync` copy loop of `DotfilesComponent.export`
(`src/core.py:397-408`): copies into the staging directory, so no
files appear in the backup directory. -/
def copyFiles (env : SysEnv) : List String → StepRes Int
  | [] => retRes 0
  | pattern :: rest =>
    let src := expanduser env pattern
    if env.fileExists src then
      bindRes (CommandExecutor.run env
        (rsyncCopyCmd src (pjoin env.tmpDir (src.drop (env.home.length + 1)))) false [])
        fun _ => copyFiles env rest
    else copyFiles env rest

/-- `DotfilesComponent.export` (`src/core.py:388-415`). -/
def exportTo (env : SysEnv) (output_dir : String) : StepRes Bool :=
  let safe_dotfiles := _get_secure_dotfile_list env
  if safe_dotfiles.isEmpty then retRes false
  else
    bindRes (copyFiles env safe_dotfiles) fun _ =>
    bindRes (CommandExecutor.run env
      (tarCreateCmd (pjoin output_dir "dotfiles.tar.gz") env.tmpDir) false
      [("", "dotfiles.tar.gz")]) fun _ =>
    retRes true

/-- `DotfilesComponent.restore` (`src/core.py:417-442`): gated by one
confirmation; extracts the archive, then runs the backup-and-rsync
shell script (whose filesystem semantics is `dotfiles_restore_script`
above). -/
def restore (env : SysEnv) (backup_dir : String) : StepRes Bool :=
  let dotfiles_archive := pjoin backup_dir "dotfiles.tar.gz"
  if !env.fileExists dotfiles_archive then retRes false
  else
    bindRes (confirmStep env "Overwrite existing files (auto backup)?") fun a =>
    if a then
      bindRes (CommandExecutor.run env (tarExtractCmd dotfiles_archive env.tmpDir)
        false []) fun _ =>
      bindRes (CommandExecutor.run env (dotfilesRestoreCmd env.tmpDir env.home)
        false []) fun _ =>
      retRes true
    else retRes false

end DotfilesComponent

namespace DefaultsComponent

/-- `DefaultsComponent.is_available` (`src/core.py:496-497`). -/
def is_available (env : SysEnv) : Bool := CommandExecutor.which env "defaults"

/-- `DefaultsComponent.is_enabled` (`src/core.py:499-500`). -/
def is_enabled (env : SysEnv) : Bool := env.cfg.enable_defaults

/-- The domain-list parsing of `DefaultsComponent.export`
(`src/core.py:512-517`): strip each line, drop blanks and `#`
comments. -/
def parseDomains (lines : List String) : List String :=
  (lines.map String.trim).filter (fun d => d != "" && !d.startsWith "#")

/-- The per-domain export loop of `DefaultsComponent.export`
(`src/core.py:528-535`): a domain is exported (and counted) only when
`defaults domains | grep -q` reports it registered. -/
def exportDomains (env : SysEnv) (defaults_dir : String) : List String → StepRes Nat
  | [] => retRes 0
  | d :: rest =>
    bindRes (CommandExecutor.run_output env (defaultsGrepCmd d)) fun code =>
    if code == 0 then
      bindRes (CommandExecutor.run env
        (defaultsExportCmd d (pjoin defaults_dir (d ++ ".plist"))) false
        [("defaults", d ++ ".plist")]) fun _ =>
      bindRes (exportDomains env defaults_dir rest) fun n =>
      retRes (n + 1)
    else exportDomains env defaults_dir rest

/-- `DefaultsComponent.export` (`src/core.py:502-538`). -/
def exportTo (env : SysEnv) (output_dir : String) : StepRes Bool :=
  if !is_enabled env || !is_available env then retRes false
  else
    let domains_file := "./" ++ env.cfg.defaults_domains_file
    if !env.fileExists domains_file then retRes false
    else
      let domains := parseDomains (env.fileLines domains_file)
      if domains.isEmpty then retRes false
      else
        bindRes (exportDomains env (pjoin output_dir "defaults") domains) fun count =>
        retRes (decide (0 < count))

/-- `DefaultsComponent.restore` (`src/core.py:540-561`). -/
def restore (env : SysEnv) (backup_dir : String) : StepRes Bool :=
  let defaults_dir := pjoin backup_dir "defaults"
  if !env.isDir defaults_dir then retRes false
  else
    bindRes (confirmStep env "Import and refresh Dock/Finder?") fun a =>
    if a then
      bindRes (CommandExecutor.run env (defaultsImportCmd defaults_dir) false []) fun _ =>
      retRes true
    else retRes false

end DefaultsComponent

namespace LaunchAgentsComponent

/-- `LaunchAgentsComponent.is_available` (`src/core.py:589-590`). -/
def is_available (_env : SysEnv) : Bool := true

/-- `LaunchAgentsComponent.is_enabled` (`src/core.py:592-593`). -/
def is_enabled (env : SysEnv) : Bool := env.cfg.enable_launchagents

/-- `LaunchAgentsComponent.export` (`src/core.py:595-611`): the
`*.plist` glob copies exactly the files `<base>.plist` into the
`LaunchAgents/` subtree. -/
def exportTo (env : SysEnv) (output_dir : String) : StepRes Bool :=
  if !is_enabled env then retRes false
  else
    let launch_agents_dir := expanduser env "~/Library/LaunchAgents"
    if !env.isDir launch_agents_dir then retRes false
    else
      let backup_la_dir := pjoin output_dir "LaunchAgents"
      bindRes (CommandExecutor.run env (laCopyOutCmd launch_agents_dir backup_la_dir)
        false (env.laPlistBases.map (fun b => ("LaunchAgents", b ++ ".plist")))) fun _ =>
      retRes true

/-- `LaunchAgentsComponent.restore` (`src/core.py:613-632`): the
`mkdir`/`cp` that put the plists back in place run unconditionally;
only the `launchctl load` loop is confirmation-gated. -/
def restore (env : SysEnv) (backup_dir : String) : StepRes Bool :=
  let backup_la_dir := pjoin backup_dir "LaunchAgents"
  if !env.isDir backup_la_dir then retRes false
  else
    let launch_agents_dir := expanduser env "~/Library/LaunchAgents"
    bindRes (CommandExecutor.run env (laMkdirCmd launch_agents_dir) false []) fun _ =>
    bindRes (CommandExecutor.run env (laCopyInCmd backup_la_dir launch_agents_dir)
      false []) fun _ =>
    bindRes (confirmStep env "Load LaunchAgents?") fun a =>
    if a then
      bindRes (CommandExecutor.run env (laLoadCmd launch_agents_dir) false []) fun _ =>
      retRes true
    else retRes false

end LaunchAgentsComponent

/-- Dispatch over the component kinds, mirroring the polymorphic calls
through the `BackupComponent` base class. -/
def Component.is_enabled (k : ComponentKind) (env : SysEnv) : Bool :=
  match k with
  | .homebrew => HomebrewComponent.is_enabled env
  | .mas => MASComponent.is_enabled env
  | .vscode => VSCodeComponent.is_enabled env
  | .dotfiles => DotfilesComponent.is_enabled env
  | .defaults => DefaultsComponent.is_enabled env
  | .launchagents => LaunchAgentsComponent.is_enabled env

def Component.is_available (k : ComponentKind) (env : SysEnv) : Bool :=
  match k with
  | .homebrew => HomebrewComponent.is_available env
  | .mas => MASComponent.is_available env
  | .vscode => VSCodeComponent.is_available env
  | .dotfiles => DotfilesComponent.is_available env
  | .defaults => DefaultsComponent.is_available env
  | .launchagents => LaunchAgentsComponent.is_available env

def Component.exportTo (k : ComponentKind) (env : SysEnv) (output_dir : String) :
    StepRes Bool :=
  match k with
  | .homebrew => HomebrewComponent.exportTo env output_dir
  | .mas => MASComponent.exportTo env output_dir
  | .vscode => VSCodeComponent.exportTo env output_dir
  | .dotfiles => DotfilesComponent.exportTo env output_dir
  | .defaults => DefaultsComponent.exportTo env output_dir
  | .launchagents => LaunchAgentsComponent.exportTo env output_dir

def Component.restore (k : ComponentKind) (env : SysEnv) (backup_dir : String) :
    StepRes Bool :=
  match k with
  | .homebrew => HomebrewComponent.restore env backup_dir
  | .mas => MASComponent.restore env backup_dir
  | .vscode => VSCodeComponent.restore env backup_dir
  | .dotfiles => DotfilesComponent.restore env backup_dir
  | .defaults => DefaultsComponent.restore env backup_dir
  | .launchagents => LaunchAgentsComponent.restore env backup_dir

/-- The fixed component order of both `BackupManager.__init__`
definitions (`src/core.py:661-668`, `src/core/backup.py:31-38`). -/
def componentsOrder : List ComponentKind :=
  [.homebrew, .mas, .vscode, .dotfiles, .defaults, .launchagents]

/-- `BackupManager._export_environment` (`src/core.py:753-765`,
identical in `src/core/backup.py:150-162`): writes `ENVIRONMENT.txt`
with a direct Python `open`, querying `sw_vers` and `xcode-select -p`
through `run_output`; it never raises and runs even in dry-run mode. -/
def exportEnvironment (env : SysEnv) : List Event × List Entry :=
  ([ Event.envWritten,
     .ran "sw_vers || true" (env.rc "sw_vers || true"),
     .ran "xcode-select -p || true" (env.rc "xcode-select -p || true") ],
   [("", "ENVIRONMENT.txt")])

/-- The component loop shared verbatim by `BackupManager.export`
(`src/core.py:684-692`) and (`src/core/backup.py:59-67`): iterate the
fixed order, invoke `export` only when `is_enabled() and
is_available()`, and count the successes.  An uncaught `SystemExit`
from a component aborts the loop. -/
def runExportLoop (env : SysEnv) (output_dir : String) :
    List ComponentKind → Except Int Nat × List Event × List Entry
  | [] => (.ok 0, [], [])
  | k :: ks =>
    if Component.is_enabled k env && Component.is_available k env then
      match Component.exportTo k env output_dir with
      | (.error code, evs, fs) => (.error code, Event.invoked k :: evs, fs)
      | (.ok b, evs, fs) =>
        match runExportLoop env output_dir ks with
        | (.error code, evs2, fs2) =>
          (.error code, (Event.invoked k :: evs) ++ evs2, fs ++ fs2)
        | (.ok n, evs2, fs2) =>
          (.ok (if b then n + 1 else n), (Event.invoked k :: evs) ++ evs2, fs ++ fs2)
    else runExportLoop env output_dir ks

/-- The component loop of `BackupManager.restore` (`src/core.py:710-713`,
identical in `src/core/backup.py:98-102`): every component's `restore`
is called unconditionally, successes are counted. -/
def runRestoreLoop (env : SysEnv) (backup_dir : String) :
    List ComponentKind → Except Int Nat × List Event
  | [] => (.ok 0, [])
  | k :: ks =>
    match Component.restore k env backup_dir with
    | (.error code, evs, _) => (.error code, evs)
    | (.ok b, evs, _) =>
      match runRestoreLoop env backup_dir ks with
      | (.error code, evs2) => (.error code, evs ++ evs2)
      | (.ok n, evs2) => (.ok (if b then n + 1 else n), evs ++ evs2)

namespace BackupManager

/-- `BackupManager.export` of the monolithic manager
(`src/core.py:670-696`): write the environment metadata first
(`success_count` becomes 1 before any component runs), then run the
component loop; the return value is `success_count > 0`. -/
def exportTo (env : SysEnv) (output_dir : String) : Except Int Bool × List Event :=
  let (eevs, _efs) := exportEnvironment env
  match runExportLoop env output_dir componentsOrder with
  | (.error code, evs, _) => (.error code, eevs ++ evs)
  | (.ok n, evs, _) => (.ok (decide (0 < 1 + n)), eevs ++ evs)

/-- `BackupManager.restore` (`src/core.py:698-717`): requires the
backup directory to exist, then restores every component and returns
`success_count > 0`. -/
def restore (env : SysEnv) (backup_dir : String) : Except Int Bool × List Event :=
  if !env.isDir backup_dir then (.ok false, [])
  else
    match runRestoreLoop env backup_dir componentsOrder with
    | (.error code, evs) => (.error code, evs)
    | (.ok n, evs) => (.ok (decide (0 < n)), evs)

end BackupManager

end Core

/-! ### The second `BackupManager` (`src/core/backup.py`)

This variant additionally generates the manifest and README and offers
compression and `unpack`.  Its components are imported from the
`core.components` package, whose files are not part of this snapshot;
the same-named components of `src/core.py` (embedded above) stand in
for them — the manager-level logic settled here does not depend on the
components' internals.

One behaviour of this manager is forced by a wrong-argument call:
`export` invokes `create_backup_manifest(temp_dir, component_names)`
(`src/core/backup.py:71`), but `utils.create_backup_manifest`
(`src/utils.py:161-183`) expects a `Logger` as its second parameter.
The function first writes `MANIFEST.txt` (listing, with sizes, every
file under the directory except any named `MANIFEST.txt`), then calls
`log.ok(...)` on the component-name list, which raises
`AttributeError`; the `except` handler calls `log.warn(...)`, which
raises `AttributeError` again, and the exception propagates out of
`export` — so the README/compression steps after the manifest call are
never reached and `export` never returns. -/

namespace CoreBackup

/-- A Python exception escaping `BackupManager.export`: a `SystemExit`
raised by a `check=True` command failure, or the `AttributeError`
raised inside `create_backup_manifest`. -/
inductive PyErr where
  | systemExit (code : Int)
  | attributeError
deriving DecidableEq

/-- Outcome of `core.backup.BackupManager.export`: the returned value
or escaped exception, the events performed, the final contents of the
output directory, and the entries listed in `MANIFEST.txt` (empty if
the manifest was never written). -/
structure ExportOutcome where
  result : Except PyErr Bool
  events : List Event
  files : List Entry
  manifest : List Entry
deriving DecidableEq

/-- `BackupManager.export` (`src/core/backup.py:40-85`): environment
metadata first, then the shared component loop, then
`create_backup_manifest` — which writes `MANIFEST.txt` and raises
`AttributeError` (see above), so the subsequent
`_create_export_readme` and `_create_compressed_backup` steps never
run.  (With `compress=True` only the target directory differs; the
crash still precedes the compression step.) -/
def BackupManager.exportTo (env : SysEnv) (output_dir : String) : ExportOutcome :=
  let (eevs, efs) := Core.exportEnvironment env
  match Core.runExportLoop env output_dir Core.componentsOrder with
  | (.error code, evs, fs) =>
    ⟨.error (.systemExit code), eevs ++ evs, efs ++ fs, []⟩
  | (.ok _n, evs, fs) =>
    let cur := efs ++ fs
    let entries := cur.filter (fun e => e.2 != "MANIFEST.txt")
    ⟨.error .attributeError, eevs ++ evs, cur ++ [("", "MANIFEST.txt")], entries⟩

/-- `BackupManager.unpack` (`src/core/backup.py:299-331`): reject a
missing archive and a failing extraction; after extraction the archive
is accepted iff a top-level `MANIFEST.json` is present, otherwise the
extraction directory is not promoted (`None`). -/
def BackupManager.unpack (archiveExists extractOk : Bool) (extracted : List Entry) :
    Option (List Entry) :=
  if !archiveExists then none
  else if !extractOk then none
  else if extracted.any (fun e => e.1 == "" && e.2 == "MANIFEST.json") then
    some extracted
  else none

end CoreBackup

/-! ### Claim C3 — restore tolerates missing artifacts -/

/-- C3.  Every component's `restore` returns `False` — with no command
executed and no exception raised — when the backup directory lacks that
component's artifact (`Brewfile`, `mas.list`, `vscode_extensions.txt`,
`dotfiles.tar.gz`, the `defaults/` directory, the `LaunchAgents/`
directory respectively). -/
theorem c3_restore_missing_artifact (env : SysEnv) (backup_dir : String) :
    (env.fileExists (pjoin backup_dir "Brewfile") = false →
      Core.HomebrewComponent.restore env backup_dir = (.ok false, [], [])) ∧
    (env.fileExists (pjoin backup_dir "mas.list") = false →
      Core.MASComponent.restore env backup_dir = (.ok false, [], [])) ∧
    (env.fileExists (pjoin backup_dir "vscode_extensions.txt") = false →
      Core.VSCodeComponent.restore env backup_dir = (.ok false, [], [])) ∧
    (env.fileExists (pjoin backup_dir "dotfiles.tar.gz") = false →
      Core.DotfilesComponent.restore env backup_dir = (.ok false, [], [])) ∧
    (env.isDir (pjoin backup_dir "defaults") = false →
      Core.DefaultsComponent.restore env backup_dir = (.ok false, [], [])) ∧
    (env.isDir (pjoin backup_dir "LaunchAgents") = false →
      Core.LaunchAgentsComponent.restore env backup_dir = (.ok false, [], [])) := by
  refine ⟨fun h => ?_, fun h => ?_, fun h => ?_, fun h => ?_, fun h => ?_, fun h => ?_⟩
  · simp [Core.HomebrewComponent.restore, h, retRes]
  · simp [Core.MASComponent.restore, h, retRes]
  · simp [Core.VSCodeComponent.restore, h, retRes]
  · simp [Core.DotfilesComponent.restore, h, retRes]
  · simp [Core.DefaultsComponent.restore, h, retRes]
  · simp [Core.LaunchAgentsComponent.restore, h, retRes]

/-- A concrete environment in which nothing exists: no binaries, no
files, no directories, every prompt answered no, every command exiting
zero. -/
def env0 : SysEnv :=
  { cfg := {}
    home := "/Users/u"
    tmpDir := "/tmp/t"
    whichCmd := fun _ => false
    rc := fun _ => 0
    fileExists := fun _ => false
    isDir := fun _ => false
    fileLines := fun _ => []
    confirmAnswer := fun _ => false
    laPlistBases := [] }

/-- Witness for C3: in `env0`, restoring from `/b` (which lacks every
artifact) makes every component return `False` without executing
anything. -/
theorem c3_restore_missing_artifact_witness :
    Core.HomebrewComponent.restore env0 "/b" = (.ok false, [], []) ∧
    Core.MASComponent.restore env0 "/b" = (.ok false, [], []) ∧
    Core.VSCodeComponent.restore env0 "/b" = (.ok false, [], []) ∧
    Core.DotfilesComponent.restore env0 "/b" = (.ok false, [], []) ∧
    Core.DefaultsComponent.restore env0 "/b" = (.ok false, [], []) ∧
    Core.LaunchAgentsComponent.restore env0 "/b" = (.ok false, [], []) := by
  obtain ⟨h1, h2, h3, h4, h5, h6⟩ := c3_restore_missing_artifact env0 "/b"
  exact ⟨h1 rfl, h2 rfl, h3 rfl, h4 rfl, h5 rfl, h6 rfl⟩

/-! ### Claim C10 — `BackupManager.export` always returns true -/

/-- C10.  Whenever `BackupManager.export` returns, it returns `True`:
the environment-metadata step unconditionally makes `success_count` at
least 1 before any component runs, so `success_count > 0` holds even
when no component is enabled and available or every invoked export
returned `False`. -/
theorem c10_export_always_true (env : SysEnv) (output_dir : String)
    (b : Bool) (evs : List Event)
    (h : Core.BackupManager.exportTo env output_dir = (.ok b, evs)) :
    b = true := by
  unfold Core.BackupManager.exportTo at h
  rcases hm : Core.runExportLoop env output_dir Core.componentsOrder with ⟨r, levs, lfs⟩
  rw [hm] at h
  cases r with
  | error code => simp at h
  | ok n =>
    simp only [Prod.mk.injEq, Except.ok.injEq] at h
    rw [← h.1]
    simp

/-- Witness for C10: in `env0` no component captures anything, yet
`export` returns `True`. -/
theorem c10_export_always_true_witness :
    (Core.BackupManager.exportTo env0 "/backup").1 = .ok true := by
  rcases hm : Core.BackupManager.exportTo env0 "/backup" with ⟨r, evs⟩
  cases r with
  | error code =>
    have h1 : (Core.BackupManager.exportTo env0 "/backup").1 = .error code :=
      congrArg Prod.fst hm
    have h2 : (Core.BackupManager.exportTo env0 "/backup").1 = .ok true := by decide
    rw [h2] at h1
    exact absurd h1 (by simp)
  | ok b => simp [c10_export_always_true env0 "/backup" b evs hm]

/-! ### Claim C5 — export sequencing and gating -/

/-- The components invoked during a run, in order: the `invoked`
markers of an event trace. -/
def invokedKinds (evs : List Event) : List ComponentKind :=
  evs.filterMap (fun e => match e with | .invoked k => some k | _ => none)

theorem invokedKinds_append (l₁ l₂ : List Event) :
    invokedKinds (l₁ ++ l₂) = invokedKinds l₁ ++ invokedKinds l₂ :=
  List.filterMap_append l₁ l₂ _

/-- Component code never emits an `invoked` marker through
`CommandExecutor.run`. -/
theorem invoked_run (env : SysEnv) (cmd : String) (check : Bool)
    (writes : List Entry) :
    invokedKinds (CommandExecutor.run env cmd check writes).2.1 = [] := by
  unfold CommandExecutor.run
  split
  · rfl
  · dsimp only
    split <;> simp [invokedKinds]

theorem invoked_run_output (env : SysEnv) (cmd : String) :
    invokedKinds (CommandExecutor.run_output env cmd).2.1 = [] := by
  simp [CommandExecutor.run_output, invokedKinds]

theorem invoked_confirmStep (env : SysEnv) (prompt : String) :
    invokedKinds (confirmStep env prompt).2.1 = [] := by
  simp [confirmStep, invokedKinds]

theorem invoked_retRes {α : Type} (a : α) :
    invokedKinds (retRes a).2.1 = [] := rfl

theorem invokedKinds_cons_inv (k : ComponentKind) (l : List Event) :
    invokedKinds (Event.invoked k :: l) = k :: invokedKinds l := rfl

theorem invoked_bind {α β : Type} {r : StepRes α} {f : α → StepRes β}
    (hr : invokedKinds r.2.1 = []) (hf : ∀ v, invokedKinds (f v).2.1 = []) :
    invokedKinds (bindRes r f).2.1 = [] := by
  rcases r with ⟨e, evs, fs⟩
  cases e with
  | error c => exact hr
  | ok v =>
    have hr' : invokedKinds evs = [] := hr
    have hv : invokedKinds (f v).2.1 = [] := hf v
    rcases hfv : f v with ⟨r2, evs2, fs2⟩
    rw [hfv] at hv
    have hv' : invokedKinds evs2 = [] := hv
    simp only [bindRes, hfv]
    rw [invokedKinds_append, hr', hv']
    rfl

theorem invoked_copyFiles (env : SysEnv) (l : List String) :
    invokedKinds (Core.DotfilesComponent.copyFiles env l).2.1 = [] := by
  induction l with
  | nil => rfl
  | cons pattern rest ih =>
    unfold Core.DotfilesComponent.copyFiles
    dsimp only
    split
    · exact invoked_bind (invoked_run ..) (fun _ => ih)
    · exact ih

theorem invoked_exportDomains (env : SysEnv) (dd : String) (l : List String) :
    invokedKinds (Core.DefaultsComponent.exportDomains env dd l).2.1 = [] := by
  induction l with
  | nil => rfl
  | cons d rest ih =>
    unfold Core.DefaultsComponent.exportDomains
    refine invoked_bind (invoked_run_output ..) (fun code => ?_)
    split
    · exact invoked_bind (invoked_run ..)
        (fun _ => invoked_bind ih (fun _ => invoked_retRes _))
    · exact ih

/-- No component's `export` emits an `invoked` marker itself — those
are emitted only by the manager loop. -/
theorem invoked_component_export (k : ComponentKind) (env : SysEnv) (dir : String) :
    invokedKinds (Core.Component.exportTo k env dir).2.1 = [] := by
  cases k with
  | homebrew =>
    show invokedKinds (Core.HomebrewComponent.exportTo env dir).2.1 = []
    unfold Core.HomebrewComponent.exportTo
    split
    · rfl
    · exact invoked_bind (invoked_run ..)
        (fun _ => invoked_bind (invoked_run ..) (fun _ => invoked_retRes _))
  | mas =>
    show invokedKinds (Core.MASComponent.exportTo env dir).2.1 = []
    unfold Core.MASComponent.exportTo
    split
    · rfl
    · exact invoked_bind (invoked_run ..) (fun _ => invoked_retRes _)
  | vscode =>
    show invokedKinds (Core.VSCodeComponent.exportTo env dir).2.1 = []
    unfold Core.VSCodeComponent.exportTo
    split
    · rfl
    · exact invoked_bind (invoked_run ..) (fun _ => invoked_retRes _)
  | dotfiles =>
    show invokedKinds (Core.DotfilesComponent.exportTo env dir).2.1 = []
    unfold Core.DotfilesComponent.exportTo
    dsimp only
    split
    · rfl
    · exact invoked_bind (invoked_copyFiles ..)
        (fun _ => invoked_bind (invoked_run ..) (fun _ => invoked_retRes _))
  | defaults =>
    show invokedKinds (Core.DefaultsComponent.exportTo env dir).2.1 = []
    unfold Core.DefaultsComponent.exportTo
    split
    · rfl
    · dsimp only
      split
      · rfl
      · split
        · rfl
        · exact invoked_bind (invoked_exportDomains ..) (fun _ => invoked_retRes _)
  | launchagents =>
    show invokedKinds (Core.LaunchAgentsComponent.exportTo env dir).2.1 = []
    unfold Core.LaunchAgentsComponent.exportTo
    split
    · rfl
    · dsimp only
      split
      · rfl
      · exact invoked_bind (invoked_run ..) (fun _ => invoked_retRes _)

/-- A completing export loop invokes exactly the enabled-and-available
components, in list order. -/
theorem runExportLoop_invoked (env : SysEnv) (dir : String) :
    ∀ (ks : List ComponentKind) (n : Nat) (evs : List Event) (fs : List Entry),
      Core.runExportLoop env dir ks = (.ok n, evs, fs) →
      invokedKinds evs = ks.filter
        (fun k => Core.Component.is_enabled k env && Core.Component.is_available k env) := by
  intro ks
  induction ks with
  | nil =>
    intro n evs fs h
    simp only [Core.runExportLoop, Prod.mk.injEq, Except.ok.injEq] at h
    rw [← h.2.1]
    rfl
  | cons k ks ih =>
    intro n evs fs h
    unfold Core.runExportLoop at h
    by_cases hg : (Core.Component.is_enabled k env && Core.Component.is_available k env) = true
    · rw [if_pos hg] at h
      rcases hc : Core.Component.exportTo k env dir with ⟨r, cevs, cfs⟩
      rw [hc] at h
      cases r with
      | error code => simp at h
      | ok bb =>
        rcases hrest : Core.runExportLoop env dir ks with ⟨r2, evs2, fs2⟩
        rw [hrest] at h
        cases r2 with
        | error code => simp at h
        | ok m =>
          simp only [Prod.mk.injEq, Except.ok.injEq] at h
          rw [← h.2.1]
          have hcev : invokedKinds cevs = [] := by
            have h0 := invoked_component_export k env dir
            rw [hc] at h0
            exact h0
          rw [List.cons_append, invokedKinds_cons_inv, invokedKinds_append,
            hcev, List.nil_append, ih m evs2 fs2 hrest]
          simp [List.filter_cons, hg]
    · rw [if_neg hg] at h
      rw [ih n evs fs h]
      simp [List.filter_cons, hg]

/-- In every run — aborted or not — the components invoked by the loop
are an initial segment of the enabled-and-available sublist, in list
order. -/
theorem runExportLoop_invoked_prefix (env : SysEnv) (dir : String) :
    ∀ (ks : List ComponentKind) (r : Except Int Nat) (evs : List Event)
      (fs : List Entry),
      Core.runExportLoop env dir ks = (r, evs, fs) →
      ∃ rest, invokedKinds evs ++ rest = ks.filter
        (fun k => Core.Component.is_enabled k env && Core.Component.is_available k env) := by
  intro ks
  induction ks with
  | nil =>
    intro r evs fs h
    simp only [Core.runExportLoop, Prod.mk.injEq] at h
    rw [← h.2.1]
    exact ⟨[], rfl⟩
  | cons k ks ih =>
    intro r evs fs h
    unfold Core.runExportLoop at h
    by_cases hg : (Core.Component.is_enabled k env && Core.Component.is_available k env) = true
    · rw [if_pos hg] at h
      rcases hc : Core.Component.exportTo k env dir with ⟨rr, cevs, cfs⟩
      rw [hc] at h
      have hcev : invokedKinds cevs = [] := by
        have h0 := invoked_component_export k env dir
        rw [hc] at h0
        exact h0
      cases rr with
      | error code =>
        simp only [Prod.mk.injEq] at h
        refine ⟨List.filter
          (fun k => Core.Component.is_enabled k env && Core.Component.is_available k env)
          ks, ?_⟩
        rw [← h.2.1]
        simp only [invokedKinds_cons_inv, hcev]
        simp [List.filter_cons, hg]
      | ok bb =>
        rcases hrest : Core.runExportLoop env dir ks with ⟨r2, evs2, fs2⟩
        rw [hrest] at h
        cases r2 with
        | error code =>
          simp only [Prod.mk.injEq] at h
          obtain ⟨rest, hr⟩ := ih (.error code) evs2 fs2 hrest
          refine ⟨rest, ?_⟩
          rw [← h.2.1]
          simp only [List.cons_append, invokedKinds_cons_inv, invokedKinds_append,
            hcev, List.nil_append]
          rw [hr]
          simp [List.filter_cons, hg]
        | ok m =>
          simp only [Prod.mk.injEq] at h
          obtain ⟨rest, hr⟩ := ih (.ok m) evs2 fs2 hrest
          refine ⟨rest, ?_⟩
          rw [← h.2.1]
          simp only [List.cons_append, invokedKinds_cons_inv, invokedKinds_append,
            hcev, List.nil_append]
          rw [hr]
          simp [List.filter_cons, hg]
    · rw [if_neg hg] at h
      obtain ⟨rest, hr⟩ := ih r evs fs h
      refine ⟨rest, ?_⟩
      rw [hr]
      simp [List.filter_cons, hg]

/-- An environment in which `brew` and `mas` are installed and the
`brew bundle dump` into `/o5c` exits 1. -/
def envBrewFail5 : SysEnv :=
  { cfg := {}
    home := "/Users/u"
    tmpDir := "/tmp/t"
    whichCmd := fun c => c == "brew" || c == "mas"
    rc := fun cmd => if cmd == brewDumpCmd (pjoin "/o5c" "Brewfile") then 1 else 0
    fileExists := fun _ => false
    isDir := fun _ => false
    fileLines := fun _ => []
    confirmAnswer := fun _ => false
    laPlistBases := [] }

/-- Counterexample to C5 as stated.  Not every run of
`BackupManager.export` invokes `component.export` exactly for the
enabled-and-available components: in this run the Homebrew component is
invoked, its `brew bundle dump` exits 1 and (being run with
`check=True`) raises `SystemExit`, aborting the loop — so the MAS
component, although both enabled and available, is never invoked. -/
theorem c5_export_gating_counterexample :
    (Core.Component.is_enabled .mas envBrewFail5 &&
      Core.Component.is_available .mas envBrewFail5) = true ∧
    Event.invoked ComponentKind.homebrew
      ∈ (Core.BackupManager.exportTo envBrewFail5 "/o5c").2 ∧
    Event.invoked ComponentKind.mas
      ∉ (Core.BackupManager.exportTo envBrewFail5 "/o5c").2 ∧
    (Core.BackupManager.exportTo envBrewFail5 "/o5c").1 = .error 1 := by
  refine ⟨by decide, by decide, by decide, by decide⟩

/-- C5, amended.  In every run of `BackupManager.export` — including
runs aborted by a component's `SystemExit` — the environment metadata
event comes first, components failing `is_enabled() and is_available()`
are never invoked, and the invoked components form an initial segment
of the enabled-and-available components in the fixed order Homebrew,
MAS, VSCode, Dotfiles, Defaults, LaunchAgents; in every run that
returns, that initial segment is the whole gated list, i.e. exactly the
enabled-and-available components.  The second manager variant
(`src/core/backup.py`) performs the identical event sequence. -/
theorem c5_export_gating_amended (env : SysEnv) (dir : String) :
    (Core.BackupManager.exportTo env dir).2.head? = some .envWritten ∧
    (∃ rest, invokedKinds (Core.BackupManager.exportTo env dir).2 ++ rest
      = Core.componentsOrder.filter
        (fun k => Core.Component.is_enabled k env && Core.Component.is_available k env)) ∧
    (∀ k, Event.invoked k ∈ (Core.BackupManager.exportTo env dir).2 →
      (Core.Component.is_enabled k env && Core.Component.is_available k env) = true) ∧
    (∀ (b : Bool) (evs : List Event), Core.BackupManager.exportTo env dir = (.ok b, evs) →
      invokedKinds evs = Core.componentsOrder.filter
        (fun k => Core.Component.is_enabled k env && Core.Component.is_available k env)) ∧
    (CoreBackup.BackupManager.exportTo env dir).events
      = (Core.BackupManager.exportTo env dir).2 := by
  have henvinv : invokedKinds [Event.envWritten,
      .ran "sw_vers || true" (env.rc "sw_vers || true"),
      .ran "xcode-select -p || true" (env.rc "xcode-select -p || true")] = [] := rfl
  rcases hm : Core.runExportLoop env dir Core.componentsOrder with ⟨r, levs, lfs⟩
  have hevs : (Core.BackupManager.exportTo env dir).2
      = [Event.envWritten,
         .ran "sw_vers || true" (env.rc "sw_vers || true"),
         .ran "xcode-select -p || true" (env.rc "xcode-select -p || true")] ++ levs := by
    unfold Core.BackupManager.exportTo
    rw [hm]
    cases r <;> rfl
  have hinvoked : invokedKinds (Core.BackupManager.exportTo env dir).2
      = invokedKinds levs := by
    rw [hevs, invokedKinds_append, henvinv, List.nil_append]
  have hpre : ∃ rest, invokedKinds (Core.BackupManager.exportTo env dir).2 ++ rest
      = Core.componentsOrder.filter
        (fun k => Core.Component.is_enabled k env && Core.Component.is_available k env) := by
    obtain ⟨rest, hr⟩ :=
      runExportLoop_invoked_prefix env dir Core.componentsOrder r levs lfs hm
    exact ⟨rest, by rw [hinvoked, hr]⟩
  refine ⟨?_, hpre, ?_, ?_, ?_⟩
  · rw [hevs]; rfl
  · intro k hk
    have hkinv : k ∈ invokedKinds (Core.BackupManager.exportTo env dir).2 := by
      unfold invokedKinds
      exact List.mem_filterMap.mpr ⟨Event.invoked k, hk, rfl⟩
    obtain ⟨rest, hr⟩ := hpre
    have : k ∈ Core.componentsOrder.filter
        (fun k => Core.Component.is_enabled k env && Core.Component.is_available k env) := by
      rw [← hr]
      exact List.mem_append.mpr (Or.inl hkinv)
    exact (List.mem_filter.mp this).2
  · intro b evs h
    unfold Core.BackupManager.exportTo at h
    rw [hm] at h
    cases r with
    | error code => simp at h
    | ok n =>
      simp only [Core.exportEnvironment, Prod.mk.injEq, Except.ok.injEq] at h
      rw [← h.2, invokedKinds_append, henvinv, List.nil_append]
      exact runExportLoop_invoked env dir Core.componentsOrder n levs lfs hm
  · rw [hevs]
    unfold CoreBackup.BackupManager.exportTo
    rw [hm]
    cases r <;> rfl

/-- Witness for C5 (amended): in `env0` the run completes, the trace is
environment metadata followed by the Dotfiles and LaunchAgents
invocations, and those are exactly the enabled-and-available
components. -/
theorem c5_export_gating_amended_witness :
    invokedKinds [Event.envWritten, .ran "sw_vers || true" 0,
      .ran "xcode-select -p || true" 0, .invoked .dotfiles, .invoked .launchagents]
      = Core.componentsOrder.filter
        (fun k => Core.Component.is_enabled k env0 && Core.Component.is_available k env0) ∧
    (Core.Component.is_enabled .dotfiles env0 &&
      Core.Component.is_available .dotfiles env0) = true := by
  have h := c5_export_gating_amended env0 "/o5"
  exact ⟨h.2.2.2.1 true _ (by decide), h.2.2.1 .dotfiles (by decide)⟩

/-! ### Claim C9 — tool failures and abort behaviour -/

/-- An environment in which `brew` and `mas` are installed and
`brew bundle dump` exits 1; everything else is absent and every other
command exits 0. -/
def envBrewFail : SysEnv :=
  { cfg := {}
    home := "/Users/u"
    tmpDir := "/tmp/t"
    whichCmd := fun c => c == "brew" || c == "mas"
    rc := fun cmd => if cmd == brewDumpCmd (pjoin "/o9" "Brewfile") then 1 else 0
    fileExists := fun _ => false
    isDir := fun _ => false
    fileLines := fun _ => []
    confirmAnswer := fun _ => false
    laPlistBases := [] }

/-- Counterexample to C9 as stated.  `HomebrewComponent.export` runs
`brew bundle dump` with the default `check=True`
(`src/core.py:213-216`), so when the tool exits 1 a `SystemExit(1)`
escapes: `BackupManager.export` aborts with the exception instead of
continuing, and the enabled-and-available MAS component is never
invoked. -/
theorem c9_counterexample :
    Core.BackupManager.exportTo envBrewFail "/o9"
      = (.error 1,
         [.envWritten, .ran "sw_vers || true" 0, .ran "xcode-select -p || true" 0,
          .invoked .homebrew, .ran (brewDumpCmd (pjoin "/o9" "Brewfile")) 1]) ∧
    (Core.Component.is_enabled .mas envBrewFail &&
      Core.Component.is_available .mas envBrewFail) = true ∧
    Event.invoked ComponentKind.mas ∉ (Core.BackupManager.exportTo envBrewFail "/o9").2 := by
  refine ⟨by decide, by decide, by decide⟩

/-- A step that completed without raising. -/
def isOkRes {α : Type} (r : StepRes α) : Prop :=
  ∃ v evs fs, r = (.ok v, evs, fs)

theorem isOk_retRes {α : Type} (a : α) : isOkRes (retRes a) :=
  ⟨a, [], [], rfl⟩

theorem isOk_confirmStep (env : SysEnv) (prompt : String) :
    isOkRes (confirmStep env prompt) :=
  ⟨_, _, _, rfl⟩

/-- A `check=False` command never raises (`src/core.py:122-128`). -/
theorem isOk_run_nocheck (env : SysEnv) (cmd : String) (writes : List Entry) :
    isOkRes (CommandExecutor.run env cmd false writes) := by
  unfold CommandExecutor.run
  split
  · exact ⟨0, [], [], rfl⟩
  · exact ⟨_, _, _, rfl⟩

theorem isOk_run_output (env : SysEnv) (cmd : String) :
    isOkRes (CommandExecutor.run_output env cmd) :=
  ⟨_, _, _, rfl⟩

theorem isOk_bind {α β : Type} {r : StepRes α} {f : α → StepRes β}
    (hr : isOkRes r) (hf : ∀ v, isOkRes (f v)) : isOkRes (bindRes r f) := by
  obtain ⟨v, evs, fs, hv⟩ := hr
  obtain ⟨w, evs2, fs2, hw⟩ := hf v
  exact ⟨w, evs ++ evs2, fs ++ fs2, by rw [hv]; simp only [bindRes, hw]⟩

theorem isOk_ite {α : Type} {c : Prop} [Decidable c] {r₁ r₂ : StepRes α}
    (h₁ : isOkRes r₁) (h₂ : isOkRes r₂) : isOkRes (if c then r₁ else r₂) := by
  split
  · exact h₁
  · exact h₂

theorem isOk_copyFiles (env : SysEnv) (l : List String) :
    isOkRes (Core.DotfilesComponent.copyFiles env l) := by
  induction l with
  | nil => exact isOk_retRes 0
  | cons pattern rest ih =>
    unfold Core.DotfilesComponent.copyFiles
    dsimp only
    split
    · exact isOk_bind (isOk_run_nocheck ..) (fun _ => ih)
    · exact ih

theorem isOk_exportDomains (env : SysEnv) (dd : String) (l : List String) :
    isOkRes (Core.DefaultsComponent.exportDomains env dd l) := by
  induction l with
  | nil => exact isOk_retRes 0
  | cons d rest ih =>
    unfold Core.DefaultsComponent.exportDomains
    refine isOk_bind (isOk_run_output ..) (fun code => ?_)
    split
    · exact isOk_bind (isOk_run_nocheck ..)
        (fun _ => isOk_bind ih (fun _ => isOk_retRes _))
    · exact ih

/-- No command inside any component's `restore` runs with
`check=True`, so a tool exiting non-zero during restore never raises:
every restore completes and returns a value. -/
theorem isOk_component_restore (k : ComponentKind) (env : SysEnv) (d : String) :
    isOkRes (Core.Component.restore k env d) := by
  cases k with
  | homebrew =>
    show isOkRes (Core.HomebrewComponent.restore env d)
    unfold Core.HomebrewComponent.restore
    dsimp only
    split
    · exact isOk_retRes false
    · refine isOk_bind (isOk_ite ?_ (isOk_retRes 0)) (fun _ => ?_)
      · exact isOk_bind (isOk_confirmStep ..)
          (fun a => isOk_ite (isOk_bind (isOk_run_nocheck ..) (fun _ => isOk_retRes 0))
            (isOk_retRes 0))
      · exact isOk_bind (isOk_confirmStep ..)
          (fun a => isOk_ite (isOk_bind (isOk_run_nocheck ..) (fun _ => isOk_retRes true))
            (isOk_retRes false))
  | mas =>
    show isOkRes (Core.MASComponent.restore env d)
    unfold Core.MASComponent.restore
    dsimp only
    split
    · exact isOk_retRes false
    · refine isOk_bind (isOk_ite (isOk_run_nocheck ..) (isOk_retRes 0)) (fun _ => ?_)
      exact isOk_bind (isOk_confirmStep ..)
        (fun a => isOk_ite (isOk_bind (isOk_run_nocheck ..) (fun _ => isOk_retRes true))
          (isOk_retRes false))
  | vscode =>
    show isOkRes (Core.VSCodeComponent.restore env d)
    unfold Core.VSCodeComponent.restore
    dsimp only
    split
    · exact isOk_retRes false
    · split
      · exact isOk_retRes false
      · exact isOk_bind (isOk_confirmStep ..)
          (fun a => isOk_ite (isOk_bind (isOk_run_nocheck ..) (fun _ => isOk_retRes true))
            (isOk_retRes false))
  | dotfiles =>
    show isOkRes (Core.DotfilesComponent.restore env d)
    unfold Core.DotfilesComponent.restore
    dsimp only
    split
    · exact isOk_retRes false
    · exact isOk_bind (isOk_confirmStep ..)
        (fun a => isOk_ite
          (isOk_bind (isOk_run_nocheck ..)
            (fun _ => isOk_bind (isOk_run_nocheck ..) (fun _ => isOk_retRes true)))
          (isOk_retRes false))
  | defaults =>
    show isOkRes (Core.DefaultsComponent.restore env d)
    unfold Core.DefaultsComponent.restore
    dsimp only
    split
    · exact isOk_retRes false
    · exact isOk_bind (isOk_confirmStep ..)
        (fun a => isOk_ite (isOk_bind (isOk_run_nocheck ..) (fun _ => isOk_retRes true))
          (isOk_retRes false))
  | launchagents =>
    show isOkRes (Core.LaunchAgentsComponent.restore env d)
    unfold Core.LaunchAgentsComponent.restore
    dsimp only
    split
    · exact isOk_retRes false
    · exact isOk_bind (isOk_run_nocheck ..)
        (fun _ => isOk_bind (isOk_run_nocheck ..)
          (fun _ => isOk_bind (isOk_confirmStep ..)
            (fun a => isOk_ite (isOk_bind (isOk_run_nocheck ..) (fun _ => isOk_retRes true))
              (isOk_retRes false))))

/-- The restore loop never raises. -/
theorem runRestoreLoop_ok (env : SysEnv) (d : String) (ks : List ComponentKind) :
    ∃ n evs, Core.runRestoreLoop env d ks = (.ok n, evs) := by
  induction ks with
  | nil => exact ⟨0, [], rfl⟩
  | cons k ks ih =>
    obtain ⟨v, cevs, cfs, hc⟩ := isOk_component_restore k env d
    obtain ⟨n, evs, hrest⟩ := ih
    refine ⟨if v then n + 1 else n, cevs ++ evs, ?_⟩
    unfold Core.runRestoreLoop
    rw [hc, hrest]

/-- C9, amended.  A non-zero tool exit never aborts a restore: every
component's `restore` — and the whole `BackupManager.restore` —
completes and returns a value for every environment (all restore
commands run with `check=False`).  The same holds for the Dotfiles,
Defaults and LaunchAgents exports.  (The exception, shown in the
counterexample, is the Homebrew/MAS/VSCode export dump commands, which
run with the default `check=True` and raise `SystemExit` on a non-zero
exit, aborting the whole export.) -/
theorem c9_amended_failure_tolerance (env : SysEnv) (d : String) :
    (∀ k, isOkRes (Core.Component.restore k env d)) ∧
    (∃ b evs, Core.BackupManager.restore env d = (.ok b, evs)) ∧
    isOkRes (Core.DotfilesComponent.exportTo env d) ∧
    isOkRes (Core.DefaultsComponent.exportTo env d) ∧
    isOkRes (Core.LaunchAgentsComponent.exportTo env d) := by
  refine ⟨fun k => isOk_component_restore k env d, ?_, ?_, ?_, ?_⟩
  · unfold Core.BackupManager.restore
    split
    · exact ⟨false, [], rfl⟩
    · obtain ⟨n, evs, h⟩ := runRestoreLoop_ok env d Core.componentsOrder
      rw [h]
      exact ⟨_, _, rfl⟩
  · unfold Core.DotfilesComponent.exportTo
    dsimp only
    split
    · exact isOk_retRes false
    · exact isOk_bind (isOk_copyFiles ..)
        (fun _ => isOk_bind (isOk_run_nocheck ..) (fun _ => isOk_retRes true))
  · unfold Core.DefaultsComponent.exportTo
    split
    · exact isOk_retRes false
    · dsimp only
      split
      · exact isOk_retRes false
      · split
        · exact isOk_retRes false
        · exact isOk_bind (isOk_exportDomains ..) (fun _ => isOk_retRes _)
  · unfold Core.LaunchAgentsComponent.exportTo
    split
    · exact isOk_retRes false
    · dsimp only
      split
      · exact isOk_retRes false
      · exact isOk_bind (isOk_run_nocheck ..) (fun _ => isOk_retRes true)

/-! ### Claim C8 — confirmation gating of mutating restore actions -/

theorem head_of_append {l m : List Char} {a : Char} (h : l.head? = some a) :
    (l ++ m).head? = some a := by
  cases l with
  | nil => simp at h
  | cons c cs => simpa using h

/-- Two strings whose first characters differ are different. -/
theorem ne_of_heads {s t : String} {a b : Char} (hs : s.data.head? = some a)
    (ht : t.data.head? = some b) (hab : a ≠ b) : s ≠ t := by
  intro h
  rw [h] at hs
  rw [hs] at ht
  exact hab (Option.some.inj ht)

theorem data_head_append (p x : String) {a : Char} (hp : p.data.head? = some a) :
    (p ++ x).data.head? = some a := by
  rw [String.data_append]
  exact head_of_append hp

theorem masInstallCmd_head (f : String) : (masInstallCmd f).data.head? = some 'a' :=
  data_head_append _ _ (data_head_append _ _ (by decide))

theorem brewBundleCmd_head (f : String) : (brewBundleCmd f).data.head? = some 'b' :=
  data_head_append _ _ (data_head_append _ _ (by decide))

theorem laLoadCmd_head (x : String) : (laLoadCmd x).data.head? = some 'f' :=
  data_head_append _ _ (data_head_append _ _ (by decide))

theorem laMkdirCmd_head (x : String) : (laMkdirCmd x).data.head? = some 'm' :=
  data_head_append _ _ (data_head_append _ _ (by decide))

theorem laCopyInCmd_head (x y : String) : (laCopyInCmd x y).data.head? = some 'c' :=
  data_head_append _ _ (data_head_append _ _
    (data_head_append _ _ (data_head_append _ _ (by decide))))

theorem homebrewInstall_ne_bundle (x : String) :
    homebrewInstallCmd ≠ brewBundleCmd x :=
  ne_of_heads (show homebrewInstallCmd.data.head? = some 'N' by decide)
    (brewBundleCmd_head x) (by decide)

theorem bundle_ne_homebrewInstall (x : String) :
    brewBundleCmd x ≠ homebrewInstallCmd :=
  (homebrewInstall_ne_bundle x).symm

theorem masInstall_ne_brewInstallMas (x : String) :
    masInstallCmd x ≠ masBrewInstallCmd :=
  ne_of_heads (masInstallCmd_head x)
    (show masBrewInstallCmd.data.head? = some 'b' by decide) (by decide)

theorem laLoad_ne_mkdir (x y : String) : laLoadCmd x ≠ laMkdirCmd y :=
  ne_of_heads (laLoadCmd_head x) (laMkdirCmd_head y) (by decide)

theorem laLoad_ne_copyIn (x y z : String) : laLoadCmd x ≠ laCopyInCmd y z :=
  ne_of_heads (laLoadCmd_head x) (laCopyInCmd_head y z) (by decide)

/-- An interactive environment whose user answers no to every prompt,
with `mas.list` present in the backup `/b8` and `mas` not installed. -/
def envMasNoConfirm : SysEnv :=
  { cfg := {}
    home := "/Users/u"
    tmpDir := "/tmp/t"
    whichCmd := fun _ => false
    rc := fun _ => 0
    fileExists := fun p => p == "/b8/mas.list"
    isDir := fun _ => false
    fileLines := fun _ => []
    confirmAnswer := fun _ => false
    laPlistBases := [] }

/-- Counterexample to C8 as stated.  In an interactive run where the
user answers no to every prompt, `MASComponent.restore` still executes
`brew install mas` — installing a tool on the live system — before any
confirmation has been answered yes (`src/core.py:282-283` runs it with
no `confirm` gate). -/
theorem c8_counterexample :
    Core.MASComponent.restore envMasNoConfirm "/b8"
      = (.ok false,
         [.ran masBrewInstallCmd 0, .confirmAsked "Install MAS list now?" false], []) ∧
    envMasNoConfirm.cfg.interactive = true ∧
    (∀ prompt, envMasNoConfirm.confirmAnswer prompt = false) :=
  ⟨by decide, rfl, fun _ => rfl⟩

/-- C8, amended.  Every mutating restore action named by the claim —
installing Homebrew, replaying `brew bundle`, replaying the MAS app
list, installing VS Code extensions, overwriting dotfiles, importing
defaults, and loading LaunchAgents — executes only when its interactive
confirmation resolved to yes; and a non-interactive run resolves every
confirmation to yes without consulting the user.  The one exception
(forced by the counterexample) is installing the `mas` tool itself:
`MASComponent.restore` runs `brew install mas` without confirmation
when `mas` is absent.  (The LaunchAgents plist copy-back is likewise
ungated but is not among the claim's named actions.) -/
theorem c8_amended_confirmation_gating (env : SysEnv) (dir : String) :
    (env.cfg.interactive = false → ∀ prompt, Logger.confirm env prompt = true) ∧
    (∀ code, Event.ran homebrewInstallCmd code
        ∈ (Core.HomebrewComponent.restore env dir).2.1 →
      Logger.confirm env "Install Homebrew?" = true) ∧
    (∀ code, Event.ran (brewBundleCmd (pjoin dir "Brewfile")) code
        ∈ (Core.HomebrewComponent.restore env dir).2.1 →
      Logger.confirm env "Execute brew bundle install?" = true) ∧
    (∀ code, Event.ran (masInstallCmd (pjoin dir "mas.list")) code
        ∈ (Core.MASComponent.restore env dir).2.1 →
      Logger.confirm env "Install MAS list now?" = true) ∧
    (∀ code, Event.ran (vscodeInstallCmd (pjoin dir "vscode_extensions.txt")) code
        ∈ (Core.VSCodeComponent.restore env dir).2.1 →
      Logger.confirm env "Start installing VS Code extensions?" = true) ∧
    (∀ code, Event.ran (dotfilesRestoreCmd env.tmpDir env.home) code
        ∈ (Core.DotfilesComponent.restore env dir).2.1 →
      Logger.confirm env "Overwrite existing files (auto backup)?" = true) ∧
    (∀ code, Event.ran (defaultsImportCmd (pjoin dir "defaults")) code
        ∈ (Core.DefaultsComponent.restore env dir).2.1 →
      Logger.confirm env "Import and refresh Dock/Finder?" = true) ∧
    (∀ code, Event.ran (laLoadCmd (expanduser env "~/Library/LaunchAgents")) code
        ∈ (Core.LaunchAgentsComponent.restore env dir).2.1 →
      Logger.confirm env "Load LaunchAgents?" = true) := by
  refine ⟨?_, ?_, ?_, ?_, ?_, ?_, ?_, ?_⟩
  · intro hni prompt
    simp [Logger.confirm, hni]
  · -- Homebrew install script, gated by "Install Homebrew?"
    intro code hmem
    unfold Core.HomebrewComponent.restore at hmem
    cases he : env.fileExists (pjoin dir "Brewfile") with
    | false => simp [he, retRes] at hmem
    | true =>
      cases hc1 : Logger.confirm env "Install Homebrew?" with
      | true => rfl
      | false =>
        cases ha : Core.HomebrewComponent.is_available env <;>
        cases hc2 : Logger.confirm env "Execute brew bundle install?" <;>
        cases hd : env.cfg.dry_run <;>
          simp [he, ha, hc1, hc2, hd, bindRes, confirmStep, CommandExecutor.run,
            retRes, homebrewInstall_ne_bundle] at hmem
  · -- brew bundle replay, gated by "Execute brew bundle install?"
    intro code hmem
    unfold Core.HomebrewComponent.restore at hmem
    cases he : env.fileExists (pjoin dir "Brewfile") with
    | false => simp [he, retRes] at hmem
    | true =>
      cases hc2 : Logger.confirm env "Execute brew bundle install?" with
      | true => rfl
      | false =>
        cases ha : Core.HomebrewComponent.is_available env <;>
        cases hc1 : Logger.confirm env "Install Homebrew?" <;>
        cases hd : env.cfg.dry_run <;>
          simp [he, ha, hc1, hc2, hd, bindRes, confirmStep, CommandExecutor.run,
            retRes, bundle_ne_homebrewInstall] at hmem
  · -- MAS replay loop, gated by "Install MAS list now?"
    intro code hmem
    unfold Core.MASComponent.restore at hmem
    cases he : env.fileExists (pjoin dir "mas.list") with
    | false => simp [he, retRes] at hmem
    | true =>
      cases hc : Logger.confirm env "Install MAS list now?" with
      | true => rfl
      | false =>
        cases ha : Core.MASComponent.is_available env <;>
        cases hd : env.cfg.dry_run <;>
          simp [he, ha, hc, hd, bindRes, confirmStep, CommandExecutor.run,
            retRes, masInstall_ne_brewInstallMas] at hmem
  · -- VS Code extension install, gated
    intro code hmem
    unfold Core.VSCodeComponent.restore at hmem
    cases he : env.fileExists (pjoin dir "vscode_extensions.txt") with
    | false => simp [he, retRes] at hmem
    | true =>
      cases ha : Core.VSCodeComponent.is_available env with
      | false => simp [he, ha, retRes] at hmem
      | true =>
        cases hc : Logger.confirm env "Start installing VS Code extensions?" with
        | true => rfl
        | false =>
          simp [he, ha, hc, bindRes, confirmStep, retRes] at hmem
  · -- dotfiles overwrite script, gated
    intro code hmem
    unfold Core.DotfilesComponent.restore at hmem
    cases he : env.fileExists (pjoin dir "dotfiles.tar.gz") with
    | false => simp [he, retRes] at hmem
    | true =>
      cases hc : Logger.confirm env "Overwrite existing files (auto backup)?" with
      | true => rfl
      | false =>
        simp [he, hc, bindRes, confirmStep, retRes] at hmem
  · -- defaults import, gated
    intro code hmem
    unfold Core.DefaultsComponent.restore at hmem
    cases he : env.isDir (pjoin dir "defaults") with
    | false => simp [he, retRes] at hmem
    | true =>
      cases hc : Logger.confirm env "Import and refresh Dock/Finder?" with
      | true => rfl
      | false =>
        simp [he, hc, bindRes, confirmStep, retRes] at hmem
  · -- launchctl load loop, gated
    intro code hmem
    unfold Core.LaunchAgentsComponent.restore at hmem
    cases he : env.isDir (pjoin dir "LaunchAgents") with
    | false => simp [he, retRes] at hmem
    | true =>
      cases hc : Logger.confirm env "Load LaunchAgents?" with
      | true => rfl
      | false =>
        cases hd : env.cfg.dry_run <;>
          simp [he, hc, hd, bindRes, confirmStep, CommandExecutor.run, retRes,
            laLoad_ne_mkdir, laLoad_ne_copyIn] at hmem

/-- A non-interactive environment in which every tool and file is
present and every command exits 0. -/
def envYes : SysEnv :=
  { cfg := { interactive := false }
    home := "/Users/u"
    tmpDir := "/tmp/t"
    whichCmd := fun _ => true
    rc := fun _ => 0
    fileExists := fun _ => true
    isDir := fun _ => true
    fileLines := fun _ => []
    confirmAnswer := fun _ => false
    laPlistBases := [] }

/-- Witness for C8 (amended): a non-interactive environment resolves a
prompt to yes, and in `envYes` the VS Code install command does appear
in the restore trace, with its confirmation resolved to yes. -/
theorem c8_amended_confirmation_gating_witness :
    Logger.confirm envYes "Install MAS list now?" = true ∧
    Logger.confirm envYes "Start installing VS Code extensions?" = true := by
  constructor
  · exact (c8_amended_confirmation_gating envYes "/b").1 rfl "Install MAS list now?"
  · exact (c8_amended_confirmation_gating envYes "/bw").2.2.2.2.1 0 (by decide)

/-! ### Claims C6 and C7 — manifest contents, README ordering, unpack -/

/-- Appending a fixed suffix cannot produce a string whose tail
differs from that suffix. -/
theorem append_fixed_ne (d sfx tgt : List Char) (hlen : sfx.length ≤ tgt.length)
    (hne : tgt.drop (tgt.length - sfx.length) ≠ sfx) : d ++ sfx ≠ tgt := by
  intro h
  have hl := congrArg List.length h
  rw [List.length_append] at hl
  have hd : d.length = tgt.length - sfx.length := by omega
  have h2 := congrArg (List.drop d.length) h
  rw [List.drop_left] at h2
  rw [hd] at h2
  exact hne h2.symm

theorem str_append_fixed_ne (d sfx tgt : String)
    (hlen : sfx.data.length ≤ tgt.data.length)
    (hne : tgt.data.drop (tgt.data.length - sfx.data.length) ≠ sfx.data) :
    d ++ sfx ≠ tgt := by
  intro h
  have hdata : d.data ++ sfx.data = tgt.data := by rw [← String.data_append, h]
  exact append_fixed_ne d.data sfx.data tgt.data hlen hne hdata

theorem plist_ne_manifest_txt (d : String) : d ++ ".plist" ≠ "MANIFEST.txt" :=
  str_append_fixed_ne d ".plist" "MANIFEST.txt" (by decide) (by decide)

theorem plist_ne_readme (d : String) : d ++ ".plist" ≠ "README.md" :=
  str_append_fixed_ne d ".plist" "README.md" (by decide) (by decide)

theorem plist_ne_manifest_json (d : String) : d ++ ".plist" ≠ "MANIFEST.json" :=
  str_append_fixed_ne d ".plist" "MANIFEST.json" (by decide) (by decide)

/-- A file name a component may write is never one of the three
manager-owned metadata names. -/
def goodName (e : Entry) : Prop :=
  e.2 ≠ "MANIFEST.txt" ∧ e.2 ≠ "README.md" ∧ e.2 ≠ "MANIFEST.json"

theorem mem_bind_files {α β : Type} {r : StepRes α} {f : α → StepRes β} {e : Entry}
    (he : e ∈ (bindRes r f).2.2) : e ∈ r.2.2 ∨ ∃ v, e ∈ (f v).2.2 := by
  rcases r with ⟨ex, evs, fs⟩
  cases ex with
  | error c => exact Or.inl he
  | ok v =>
    rcases hfv : f v with ⟨r2, evs2, fs2⟩
    simp only [bindRes, hfv] at he
    rcases List.mem_append.mp he with h | h
    · exact Or.inl h
    · exact Or.inr ⟨v, by rw [hfv]; exact h⟩

theorem mem_run_files {env : SysEnv} {cmd : String} {check : Bool}
    {writes : List Entry} {e : Entry}
    (he : e ∈ (CommandExecutor.run env cmd check writes).2.2) : e ∈ writes := by
  unfold CommandExecutor.run at he
  split at he
  · simp at he
  · dsimp only at he
    split at he <;> exact he

theorem copyFiles_files (env : SysEnv) (l : List String) :
    ∀ e ∈ (Core.DotfilesComponent.copyFiles env l).2.2, False := by
  induction l with
  | nil => intro e he; simp [Core.DotfilesComponent.copyFiles, retRes] at he
  | cons pattern rest ih =>
    intro e he
    unfold Core.DotfilesComponent.copyFiles at he
    dsimp only at he
    split at he
    · rcases mem_bind_files he with h | ⟨v, h⟩
      · simpa using mem_run_files h
      · exact ih e h
    · exact ih e he

theorem exportDomains_files (env : SysEnv) (dd : String) (l : List String) :
    ∀ e ∈ (Core.DefaultsComponent.exportDomains env dd l).2.2,
      ∃ d, e = ("defaults", d ++ ".plist") := by
  induction l with
  | nil => intro e he; simp [Core.DefaultsComponent.exportDomains, retRes] at he
  | cons d rest ih =>
    intro e he
    unfold Core.DefaultsComponent.exportDomains at he
    rcases mem_bind_files he with h | ⟨code, h⟩
    · simp [CommandExecutor.run_output] at h
    · split at h
      · rcases mem_bind_files h with h2 | ⟨v, h2⟩
        · have := mem_run_files h2
          simp at this
          exact ⟨d, by rw [this]⟩
        · rcases mem_bind_files h2 with h3 | ⟨n, h3⟩
          · exact ih e h3
          · simp [retRes] at h3
      · exact ih e h

/-- Every file a component export writes into the backup directory has
a `goodName`: fixed artifact names, or `<domain>.plist` /
`<base>.plist` names. -/
theorem export_files_good (k : ComponentKind) (env : SysEnv) (dir : String) :
    ∀ e ∈ (Core.Component.exportTo k env dir).2.2, goodName e := by
  cases k with
  | homebrew =>
    intro e he
    have he' : e ∈ (Core.HomebrewComponent.exportTo env dir).2.2 := he
    unfold Core.HomebrewComponent.exportTo at he'
    split at he'
    · simp [retRes] at he'
    · rcases mem_bind_files he' with h | ⟨v, h⟩
      · have := mem_run_files h
        simp at this
        rw [this]; exact ⟨by decide, by decide, by decide⟩
      · rcases mem_bind_files h with h2 | ⟨w, h2⟩
        · have := mem_run_files h2
          simp at this
          rw [this]; exact ⟨by decide, by decide, by decide⟩
        · simp [retRes] at h2
  | mas =>
    intro e he
    have he' : e ∈ (Core.MASComponent.exportTo env dir).2.2 := he
    unfold Core.MASComponent.exportTo at he'
    split at he'
    · simp [retRes] at he'
    · rcases mem_bind_files he' with h | ⟨v, h⟩
      · have := mem_run_files h
        simp at this
        rw [this]; exact ⟨by decide, by decide, by decide⟩
      · simp [retRes] at h
  | vscode =>
    intro e he
    have he' : e ∈ (Core.VSCodeComponent.exportTo env dir).2.2 := he
    unfold Core.VSCodeComponent.exportTo at he'
    split at he'
    · simp [retRes] at he'
    · rcases mem_bind_files he' with h | ⟨v, h⟩
      · have := mem_run_files h
        simp at this
        rw [this]; exact ⟨by decide, by decide, by decide⟩
      · simp [retRes] at h
  | dotfiles =>
    intro e he
    have he' : e ∈ (Core.DotfilesComponent.exportTo env dir).2.2 := he
    unfold Core.DotfilesComponent.exportTo at he'
    dsimp only at he'
    split at he'
    · simp [retRes] at he'
    · rcases mem_bind_files he' with h | ⟨v, h⟩
      · exact absurd h (by intro hh; exact copyFiles_files env _ e hh)
      · rcases mem_bind_files h with h2 | ⟨w, h2⟩
        · have := mem_run_files h2
          simp at this
          rw [this]; exact ⟨by decide, by decide, by decide⟩
        · simp [retRes] at h2
  | defaults =>
    intro e he
    have he' : e ∈ (Core.DefaultsComponent.exportTo env dir).2.2 := he
    unfold Core.DefaultsComponent.exportTo at he'
    split at he'
    · simp [retRes] at he'
    · dsimp only at he'
      split at he'
      · simp [retRes] at he'
      · split at he'
        · simp [retRes] at he'
        · rcases mem_bind_files he' with h | ⟨v, h⟩
          · obtain ⟨d, hd⟩ := exportDomains_files env _ _ e h
            rw [hd]
            exact ⟨plist_ne_manifest_txt d, plist_ne_readme d, plist_ne_manifest_json d⟩
          · simp [retRes] at h
  | launchagents =>
    intro e he
    have he' : e ∈ (Core.LaunchAgentsComponent.exportTo env dir).2.2 := he
    unfold Core.LaunchAgentsComponent.exportTo at he'
    split at he'
    · simp [retRes] at he'
    · dsimp only at he'
      split at he'
      · simp [retRes] at he'
      · rcases mem_bind_files he' with h | ⟨v, h⟩
        · have hw := mem_run_files h
          obtain ⟨b, _, hb⟩ := List.mem_map.mp hw
          rw [← hb]
          exact ⟨plist_ne_manifest_txt b, plist_ne_readme b, plist_ne_manifest_json b⟩
        · simp [retRes] at h


/-- Every file written by the component loop has a `goodName`. -/
theorem runExportLoop_files_good (env : SysEnv) (dir : String) :
    ∀ (ks : List ComponentKind) (r : Except Int Nat) (evs : List Event)
      (fs : List Entry),
      Core.runExportLoop env dir ks = (r, evs, fs) → ∀ e ∈ fs, goodName e := by
  intro ks
  induction ks with
  | nil =>
    intro r evs fs h e he
    simp only [Core.runExportLoop, Prod.mk.injEq] at h
    rw [← h.2.2] at he
    simp at he
  | cons k ks ih =>
    intro r evs fs h e he
    unfold Core.runExportLoop at h
    by_cases hg : (Core.Component.is_enabled k env && Core.Component.is_available k env) = true
    · rw [if_pos hg] at h
      rcases hc : Core.Component.exportTo k env dir with ⟨rr, cevs, cfs⟩
      rw [hc] at h
      cases rr with
      | error code =>
        simp only [Prod.mk.injEq] at h
        rw [← h.2.2] at he
        have := export_files_good k env dir e
        rw [hc] at this
        exact this he
      | ok bb =>
        rcases hrest : Core.runExportLoop env dir ks with ⟨r2, evs2, fs2⟩
        rw [hrest] at h
        cases r2 with
        | error code =>
          simp only [Prod.mk.injEq] at h
          rw [← h.2.2] at he
          rcases List.mem_append.mp he with hh | hh
          · have := export_files_good k env dir e
            rw [hc] at this
            exact this hh
          · exact ih (.error code) evs2 fs2 hrest e hh
        | ok m =>
          simp only [Prod.mk.injEq] at h
          rw [← h.2.2] at he
          rcases List.mem_append.mp he with hh | hh
          · have := export_files_good k env dir e
            rw [hc] at this
            exact this hh
          · exact ih (.ok m) evs2 fs2 hrest e hh
    · rw [if_neg hg] at h
      exact ih r evs fs h e he

/-- C6, amended.  In every run of the `src/core/backup.py` export whose
component loop completes, the written `MANIFEST.txt` enumerates exactly
the files then present (every file except the manifest itself), the
manifest is generated after every component's files exist, and the
README is generated only *after* the manifest — in fact never, because
`create_backup_manifest` raises `AttributeError` (its `log` argument is
the component-name list), aborting `export`; so the final directory is
the manifest's entries plus `MANIFEST.txt`, and `README.md` never
exists. -/
theorem c6_manifest_amended (env : SysEnv) (dir : String)
    (hok : ∀ code, (CoreBackup.BackupManager.exportTo env dir).result
      ≠ .error (.systemExit code)) :
    (CoreBackup.BackupManager.exportTo env dir).result = .error .attributeError ∧
    (CoreBackup.BackupManager.exportTo env dir).files
      = (CoreBackup.BackupManager.exportTo env dir).manifest ++ [("", "MANIFEST.txt")] ∧
    (∀ e ∈ (CoreBackup.BackupManager.exportTo env dir).files, e.2 ≠ "README.md") := by
  unfold CoreBackup.BackupManager.exportTo at hok ⊢
  rcases hm : Core.runExportLoop env dir Core.componentsOrder with ⟨r, levs, lfs⟩
  rw [hm] at hok
  cases r with
  | error code => exact absurd rfl (hok code)
  | ok n =>
    simp only [Core.exportEnvironment]
    have hgood : ∀ e ∈ lfs, goodName e :=
      runExportLoop_files_good env dir Core.componentsOrder (.ok n) levs lfs hm
    have hcur : ∀ e ∈ ([(("" : String), ("ENVIRONMENT.txt" : String))] ++ lfs),
        goodName e := by
      intro e he
      rcases List.mem_append.mp he with hh | hh
      · simp at hh
        rw [hh]; exact ⟨by decide, by decide, by decide⟩
      · exact hgood e hh
    have hfilter : ([(("" : String), ("ENVIRONMENT.txt" : String))] ++ lfs).filter
        (fun e => e.2 != "MANIFEST.txt")
        = [(("" : String), ("ENVIRONMENT.txt" : String))] ++ lfs := by
      rw [List.filter_eq_self]
      intro e he
      exact bne_iff_ne.mpr (hcur e he).1
    refine ⟨trivial, ?_, ?_⟩
    · simp only [hfilter]
    · intro e he
      rcases List.mem_append.mp he with hh | hh
      · exact (hcur e hh).2.1
      · simp at hh
        rw [hh]
        decide

/-- Counterexample to C6 as stated.  In a concrete run the manifest is
generated (it lists `ENVIRONMENT.txt`) while `README.md` does not exist
— and never will, since `export` aborts right after writing the
manifest — contradicting "generated last, after every component's
files and the README exist". -/
theorem c6_counterexample :
    (CoreBackup.BackupManager.exportTo env0 "/o6").manifest
      = [("", "ENVIRONMENT.txt")] ∧
    ("", "README.md") ∉ (CoreBackup.BackupManager.exportTo env0 "/o6").files ∧
    (CoreBackup.BackupManager.exportTo env0 "/o6").result = .error .attributeError := by
  refine ⟨by decide, by decide, by decide⟩

/-- Witness for C6 (amended), at the concrete environment `env0`. -/
theorem c6_manifest_amended_witness :
    (CoreBackup.BackupManager.exportTo env0 "/o6w").files
      = (CoreBackup.BackupManager.exportTo env0 "/o6w").manifest
          ++ [("", "MANIFEST.txt")] ∧
    (∀ e ∈ (CoreBackup.BackupManager.exportTo env0 "/o6w").files,
      e.2 ≠ "README.md") := by
  have hok : ∀ code, (CoreBackup.BackupManager.exportTo env0 "/o6w").result
      ≠ .error (.systemExit code) := by
    intro code h
    have h2 : (CoreBackup.BackupManager.exportTo env0 "/o6w").result
        = .error .attributeError := by decide
    rw [h2] at h
    simp at h
  have h := c6_manifest_amended env0 "/o6w" hok
  exact ⟨h.2.1, h.2.2⟩

/-- C7.  The `unpack`/`export` round trip is broken: (1) in every
completing export run, no file named `MANIFEST.json` is ever written
(the manifest is written as `MANIFEST.txt`), and `export` aborts with
`AttributeError` before the compression step, so no archive is even
produced; (2) `unpack` returns no directory for any extracted tree
lacking a top-level `MANIFEST.json` — hence `unpack` would reject
every archive export could have produced.  (The second half of the
claim — trees lacking the manifest are rejected — is exactly (2) and
does hold.) -/
theorem c7_unpack_rejects_export_archives :
    (∀ (env : SysEnv) (dir : String),
      (∀ code, (CoreBackup.BackupManager.exportTo env dir).result
        ≠ .error (.systemExit code)) →
      (∀ e ∈ (CoreBackup.BackupManager.exportTo env dir).files,
        e.2 ≠ "MANIFEST.json") ∧
      (CoreBackup.BackupManager.exportTo env dir).result = .error .attributeError) ∧
    (∀ (archiveExists extractOk : Bool) (tree : List Entry),
      (∀ e ∈ tree, e.2 ≠ "MANIFEST.json") →
      CoreBackup.BackupManager.unpack archiveExists extractOk tree = none) := by
  constructor
  · intro env dir hok
    unfold CoreBackup.BackupManager.exportTo at hok ⊢
    rcases hm : Core.runExportLoop env dir Core.componentsOrder with ⟨r, levs, lfs⟩
    rw [hm] at hok
    cases r with
    | error code => exact absurd rfl (hok code)
    | ok n =>
      simp only [Core.exportEnvironment]
      have hgood : ∀ e ∈ lfs, goodName e :=
        runExportLoop_files_good env dir Core.componentsOrder (.ok n) levs lfs hm
      refine ⟨?_, trivial⟩
      intro e he
      rcases List.mem_append.mp he with hh | hh
      · rcases List.mem_append.mp hh with h1 | h1
        · simp at h1
          rw [h1]; decide
        · exact (hgood e h1).2.2
      · simp at hh
        rw [hh]; decide
  · intro ae eo tree htree
    unfold CoreBackup.BackupManager.unpack
    split
    · rfl
    · split
      · rfl
      · have hany : tree.any (fun e => e.1 == "" && e.2 == "MANIFEST.json") = false := by
          rw [List.any_eq_false]
          intro e he hbad
          simp only [Bool.and_eq_true, beq_iff_eq] at hbad
          exact htree e he hbad.2
        rw [hany]
        rfl

/-- Witness for C7: `unpack` rejects the tree of files produced by a
concrete completing export run. -/
theorem c7_unpack_rejects_export_archives_witness :
    CoreBackup.BackupManager.unpack true true
      (CoreBackup.BackupManager.exportTo env0 "/o7").files = none := by
  have hok : ∀ code, (CoreBackup.BackupManager.exportTo env0 "/o7").result
      ≠ .error (.systemExit code) := by
    intro code h
    have h2 : (CoreBackup.BackupManager.exportTo env0 "/o7").result
        = .error .attributeError := by decide
    rw [h2] at h
    simp at h
  exact c7_unpack_rejects_export_archives.2 true true _
    (fun e he => (c7_unpack_rejects_export_archives.1 env0 "/o7" hok).1 e he)

end MyConfig
